import Mathlib

/-!
# Boids: spatial grid, neighbour query, flocking forces and motion integrator

A shallow embedding of `src/boids.c`.

* C `float` is an ordered field `K` with a floor function, in exact arithmetic
  (`ℚ` for evaluation, `ℝ` where a true square root is needed).
* C `int` is `ℤ`; the conversion `(int)x` truncates toward zero.
* A `Boid *` is the index of the boid in the `boids` array; pointer identity is
  equality of indices.  The array itself is a function `ℕ → Boid K`.
* A `BoidList` is the list of its `count` live entries together with its capacity.
* The global `grid`, `rows`, `cols` are the record `Grid`; the five global
  parameters are the record `Params`.
* `libm` (`sqrtf`, `atan2f`, `sinf`, `cosf`) and `PI` are taken as the record `Libm`.
* The `raymath.h` helpers are written out as in that header, in exact arithmetic.
* Where the rounding of `float` or the range of the 32-bit `int` decides a property (the
  cell index, the grid size, the speed clamp), the function is restated with the rounding
  `rnd` and the result `ub` of an out-of-range conversion as parameters (`grid_row_f32`,
  `grid_col_f32`, `init_grid_f32`, `Libm.rounded`); `round_f32` is the binary32 rounding.
-/

set_option linter.unusedSectionVars false

namespace Boids

/-! ## Data model -/

/-- The raylib `Vector2`. -/
@[ext] structure Vector2 (K : Type) where
  x : K
  y : K

/-- The `Boid` record (lines 19-25). -/
structure Boid (K : Type) where
  pos : Vector2 K
  vel : Vector2 K
  v1 : Vector2 K
  v2 : Vector2 K
  v3 : Vector2 K
  angle_deg : K
  size : K

/-- The `BoidList` record (lines 27-31): `data` holds the `count` live entries. -/
structure BoidList where
  data : List ℕ
  capacity : ℕ

/-- The field `count` of a `BoidList`. -/
def BoidList.count (l : BoidList) : ℕ := l.data.length

/-- The globals `grid`, `rows`, `cols` (lines 49-50). -/
structure Grid where
  rows : ℤ
  cols : ℤ
  cell : ℤ → ℤ → BoidList

/-- The five global parameters (lines 13-17). -/
structure Params (K : Type) where
  avoid_factor : K
  centering_factor : K
  matching_factor : K
  visual_range : K
  protected_range : K

/-- The functions of `math.h` that the program calls, and the constant `PI`. -/
structure Libm (K : Type) where
  sqrtf : K → K
  atan2f : K → K → K
  sinf : K → K
  cosf : K → K
  PI : K

/-- The accumulator of `cohesion` (lines 33-36). -/
structure CohesionData (K : Type) where
  pos_sum : Vector2 K
  count : ℤ

/-- The accumulator of `separation` (lines 38-41). -/
structure SeparationData (K : Type) where
  self : ℕ
  repulsion : Vector2 K

/-- The accumulator of `alignment` (lines 43-47). -/
structure AlignmentData (K : Type) where
  self : ℕ
  vel_sum : Vector2 K
  count : ℤ

def SCREEN_WIDTH : ℤ := 1920

def SCREEN_HEIGHT : ℤ := 1080

def N : ℕ := 800

section Model

variable {K : Type} [LinearOrderedField K] [FloorRing K]

/-! ## Numeric conversions -/

/-- The C conversion `(int)x` of a float: truncation toward zero. -/
def truncToInt (x : K) : ℤ :=
  if 0 ≤ x then ⌊x⌋ else ⌈x⌉

/-- The C `fmodf`: the remainder of the truncated division. -/
def fmodf (x y : K) : K :=
  x - y * (truncToInt (x / y) : K)

/-! ## raymath -/

def Vector2Zero : Vector2 K := ⟨0, 0⟩

def Vector2Add (v1 v2 : Vector2 K) : Vector2 K := ⟨v1.x + v2.x, v1.y + v2.y⟩

def Vector2Subtract (v1 v2 : Vector2 K) : Vector2 K := ⟨v1.x - v2.x, v1.y - v2.y⟩

def Vector2Scale (v : Vector2 K) (scale : K) : Vector2 K := ⟨v.x * scale, v.y * scale⟩

def Vector2Lerp (v1 v2 : Vector2 K) (amount : K) : Vector2 K :=
  ⟨v1.x + amount * (v2.x - v1.x), v1.y + amount * (v2.y - v1.y)⟩

def Vector2DistanceSqr (v1 v2 : Vector2 K) : K :=
  (v1.x - v2.x) * (v1.x - v2.x) + (v1.y - v2.y) * (v1.y - v2.y)

def Vector2Length (L : Libm K) (v : Vector2 K) : K :=
  L.sqrtf (v.x * v.x + v.y * v.y)

def Vector2Distance (L : Libm K) (v1 v2 : Vector2 K) : K :=
  L.sqrtf ((v1.x - v2.x) * (v1.x - v2.x) + (v1.y - v2.y) * (v1.y - v2.y))

def Vector2Normalize (L : Libm K) (v : Vector2 K) : Vector2 K :=
  let length := L.sqrtf (v.x * v.x + v.y * v.y)
  if length > 0 then
    let ilength := 1 / length
    ⟨v.x * ilength, v.y * ilength⟩
  else ⟨0, 0⟩

/-- The raymath `EPSILON`. -/
def EPSILON : K := 1 / 1000000

/-- The raymath comparison of two vectors, up to `EPSILON` on each axis. -/
def Vector2Equals (p q : Vector2 K) : Bool :=
  decide (|p.x - q.x| ≤ EPSILON * max 1 (max |p.x| |q.x|)) &&
  decide (|p.y - q.y| ≤ EPSILON * max 1 (max |p.y| |q.y|))

/-! ## Spatial grid (lines 52-109) -/

/-- The empty cell that `init_grid` and `clear_grid` write. -/
def BoidList.empty : BoidList := ⟨[], 0⟩

/-- The assignment `grid[i][j] = l`. -/
def Grid.set (g : Grid) (i j : ℤ) (l : BoidList) : Grid :=
  { g with cell := fun r c => if r = i ∧ c = j then l else g.cell r c }

/-- The double loop `for i < rows, for j < cols` that empties every cell
(the body of `init_grid` and of `clear_grid`). -/
def Grid.reset (g : Grid) : Grid :=
  (List.range g.rows.toNat).foldl (fun (g : Grid) (i : ℕ) =>
    (List.range g.cols.toNat).foldl (fun (g : Grid) (j : ℕ) =>
      g.set (i : ℤ) (j : ℤ) BoidList.empty) g) g

/-- `init_grid` (lines 52-66); `fresh` is the content of the memory `malloc` returns. -/
def init_grid (screen_width screen_height : ℤ) (visual_range : K)
    (fresh : ℤ → ℤ → BoidList) : Grid :=
  Grid.reset
    { rows := ⌈(screen_height : K) / visual_range⌉
      cols := ⌈(screen_width : K) / visual_range⌉
      cell := fresh }

/-- `boidlist_add` (lines 79-86). -/
def boidlist_add (list : BoidList) (b : ℕ) : BoidList :=
  let capacity :=
    if list.count = list.capacity then
      (if list.capacity = 0 then 4 else list.capacity * 2)
    else list.capacity
  { data := list.data ++ [b], capacity := capacity }

/-- The row that `add_boid_to_grid` computes (lines 89, 92-93). -/
def grid_row (P : Params K) (g : Grid) (pos : Vector2 K) : ℤ :=
  let row := truncToInt (pos.y / P.visual_range)
  let row := if row < 0 then 0 else row
  if row ≥ g.rows then g.rows - 1 else row

/-- The column that `add_boid_to_grid` computes (lines 90, 94-95). -/
def grid_col (P : Params K) (g : Grid) (pos : Vector2 K) : ℤ :=
  let col := truncToInt (pos.x / P.visual_range)
  let col := if col < 0 then 0 else col
  if col ≥ g.cols then g.cols - 1 else col

/-- `add_boid_to_grid` (lines 88-98). -/
def add_boid_to_grid (P : Params K) (g : Grid) (boids : ℕ → Boid K) (b : ℕ) : Grid :=
  let row := grid_row P g (boids b).pos
  let col := grid_col P g (boids b).pos
  g.set row col (boidlist_add (g.cell row col) b)

/-- `clear_grid` (lines 100-109). -/
def clear_grid (g : Grid) : Grid := Grid.reset g

/-- The per-frame rebuild of `main` (lines 323-326) for a store of `n` boids. -/
def rebuild_grid (P : Params K) (g : Grid) (boids : ℕ → Boid K) (n : ℕ) : Grid :=
  (List.range n).foldl (fun g i => add_boid_to_grid P g boids i) (clear_grid g)

/-! ## Neighbour query (lines 111-126) -/

/-- `for_neighbors` (lines 111-126): the callback receives the neighbour and the user
data, and returns the user data as it has changed it. -/
def for_neighbors {σ : Type} (P : Params K) (g : Grid) (boids : ℕ → Boid K) (b : ℕ)
    (callback : ℕ → σ → σ) (user_data : σ) : σ :=
  let row := truncToInt ((boids b).pos.y / P.visual_range)
  let col := truncToInt ((boids b).pos.x / P.visual_range)
  [row - 1, row, row + 1].foldl (fun acc i =>
    if i < 0 ∨ i ≥ g.rows then acc
    else [col - 1, col, col + 1].foldl (fun acc j =>
      if j < 0 ∨ j ≥ g.cols then acc
      else (g.cell i j).data.foldl (fun acc neighbor =>
        if neighbor ≠ b then callback neighbor acc else acc) acc) acc) user_data

/-- The candidates that `for_neighbors` hands to its callback, in the order of the calls. -/
def visited (P : Params K) (g : Grid) (boids : ℕ → Boid K) (b : ℕ) : List ℕ :=
  for_neighbors P g boids b (fun neighbor acc => acc ++ [neighbor]) []

/-! ## Flocking forces (lines 128-184) -/

/-- `vector2divide` (lines 128-130). -/
def vector2divide (v1 : Vector2 K) (v : K) : Vector2 K := ⟨v1.x / v, v1.y / v⟩

/-- `cohesion_callback` (lines 132-136). -/
def cohesion_callback (boids : ℕ → Boid K) (neighbor : ℕ) (data : CohesionData K) :
    CohesionData K :=
  { pos_sum := Vector2Add data.pos_sum (boids neighbor).pos, count := data.count + 1 }

/-- `cohesion` (lines 138-146). -/
def cohesion (P : Params K) (g : Grid) (boids : ℕ → Boid K) (b : ℕ) : Vector2 K :=
  let data := for_neighbors P g boids b (cohesion_callback boids) ⟨Vector2Zero, 0⟩
  if data.count = 0 then Vector2Zero
  else
    let avg := vector2divide data.pos_sum (data.count : K)
    Vector2Subtract avg (boids b).pos

/-- `separation_callback` (lines 148-157). -/
def separation_callback (P : Params K) (boids : ℕ → Boid K) (neighbor : ℕ)
    (data : SeparationData K) : SeparationData K :=
  if Vector2Equals (boids data.self).pos (boids neighbor).pos then data
  else
    let dist_sq := Vector2DistanceSqr (boids data.self).pos (boids neighbor).pos
    if dist_sq < P.protected_range * P.protected_range then
      let diff := Vector2Subtract (boids data.self).pos (boids neighbor).pos
      { data with repulsion := Vector2Add data.repulsion diff }
    else data

/-- `separation` (lines 159-163). -/
def separation (P : Params K) (g : Grid) (boids : ℕ → Boid K) (b : ℕ) : Vector2 K :=
  (for_neighbors P g boids b (separation_callback P boids) ⟨b, Vector2Zero⟩).repulsion

/-- `alignment_callback` (lines 165-174). -/
def alignment_callback (L : Libm K) (P : Params K) (boids : ℕ → Boid K) (neighbor : ℕ)
    (data : AlignmentData K) : AlignmentData K :=
  if Vector2Equals (boids data.self).pos (boids neighbor).pos then data
  else
    let dist := Vector2Distance L (boids data.self).pos (boids neighbor).pos
    if dist < P.visual_range then
      { data with vel_sum := Vector2Add data.vel_sum (boids neighbor).vel,
                  count := data.count + 1 }
    else data

/-- `alignment` (lines 176-184). -/
def alignment (L : Libm K) (P : Params K) (g : Grid) (boids : ℕ → Boid K) (b : ℕ) :
    Vector2 K :=
  let data := for_neighbors P g boids b (alignment_callback L P boids) ⟨b, Vector2Zero, 0⟩
  if data.count = 0 then Vector2Zero
  else
    let vel_sum := vector2divide data.vel_sum (data.count : K)
    Vector2Subtract vel_sum (boids b).vel

/-! ## Motion integrator (lines 186-260) -/

/-- `lerp_angle` (lines 186-190). -/
def lerp_angle (a b t : K) : K :=
  let diff := fmodf (b - a + 360) 360
  let diff := if diff > 180 then diff - 360 else diff
  fmodf (a + diff * t + 360) 360

/-- The change `bound_position` makes to `vel.x` (lines 211-212). -/
def bound_vel_x (pos vel : Vector2 K) : K :=
  let margin : K := 100
  let turn_strengh : K := 80
  if pos.x < margin then vel.x + (margin - pos.x) / margin * turn_strengh
  else if pos.x > (SCREEN_WIDTH : K) - margin then
    vel.x - (pos.x - ((SCREEN_WIDTH : K) - margin)) / margin * turn_strengh
  else vel.x

/-- The change `bound_position` makes to `vel.y` (lines 213-214). -/
def bound_vel_y (pos vel : Vector2 K) : K :=
  let margin : K := 100
  let turn_strengh : K := 80
  if pos.y < margin then vel.y + (margin - pos.y) / margin * turn_strengh
  else if pos.y > (SCREEN_HEIGHT : K) - margin then
    vel.y - (pos.y - ((SCREEN_HEIGHT : K) - margin)) / margin * turn_strengh
  else vel.y

/-- `bound_position` (lines 207-215). -/
def bound_position (b : Boid K) : Boid K :=
  { b with vel := ⟨bound_vel_x b.pos b.vel, bound_vel_y b.pos b.vel⟩ }

/-- `rotate_point` (lines 217-227), with `DEG2RAD = PI/180`. -/
def rotate_point (L : Libm K) (point center : Vector2 K) (angle_deg : K) : Vector2 K :=
  let rad := angle_deg * (L.PI / 180)
  let rel := Vector2Subtract point center
  let sin_a := L.sinf rad
  let cos_a := L.cosf rad
  let rotated : Vector2 K := ⟨cos_a * rel.x - rel.y * sin_a, sin_a * rel.x + rel.y * cos_a⟩
  Vector2Add rotated center

/-- The velocity `update_boid` holds after the smoothing step (lines 230-239). -/
def smoothed_vel (L : Libm K) (P : Params K) (g : Grid) (boids : ℕ → Boid K) (b : ℕ) :
    Vector2 K :=
  let separation_force := Vector2Scale (separation P g boids b) P.avoid_factor
  let cohesion_force := Vector2Scale (cohesion P g boids b) P.centering_factor
  let alignment_force := Vector2Scale (alignment L P g boids b) P.matching_factor
  let desired_vel := (boids b).vel
  let desired_vel := Vector2Add desired_vel alignment_force
  let desired_vel := Vector2Add desired_vel cohesion_force
  let desired_vel := Vector2Add desired_vel separation_force
  Vector2Lerp (boids b).vel desired_vel (1 / 10)

/-- The speed clamp of `update_boid` (lines 241-244). -/
def clamp_speed (L : Libm K) (vel : Vector2 K) : Vector2 K :=
  let max_speed : K := 400
  if Vector2Length L vel > max_speed then
    Vector2Scale (Vector2Normalize L vel) max_speed
  else vel

/-- `update_boid` (lines 229-260): the new value of `boids[b]`. -/
def update_boid (L : Libm K) (P : Params K) (g : Grid) (boids : ℕ → Boid K) (b : ℕ)
    (dt : K) : Boid K :=
  let b0 := boids b
  let b1 := { b0 with vel := smoothed_vel L P g boids b }
  let b2 := { b1 with vel := clamp_speed L b1.vel }
  let b3 := { b2 with pos := Vector2Add b2.pos (Vector2Scale b2.vel dt) }
  let b4 := bound_position b3
  let target_angle := L.atan2f b4.vel.y b4.vel.x * (180 / L.PI)
  let b5 := { b4 with angle_deg := lerp_angle b4.angle_deg target_angle (3 * dt) }
  let s := b5.size
  let v1 : Vector2 K := ⟨b5.pos.x + s / 2, b5.pos.y⟩
  let v2 : Vector2 K := ⟨b5.pos.x - s / 2, b5.pos.y - s / 3⟩
  let v3 : Vector2 K := ⟨b5.pos.x - s / 2, b5.pos.y + s / 3⟩
  { b5 with
    v1 := rotate_point L v1 b5.pos b5.angle_deg
    v2 := rotate_point L v2 b5.pos b5.angle_deg
    v3 := rotate_point L v3 b5.pos b5.angle_deg }

/-! ## The frame loop of `main` (lines 306-345) -/

/-- The update loop of a frame (lines 335-338), on the live array. -/
def update_boids (L : Libm K) (P : Params K) (g : Grid) (boids : ℕ → Boid K) (n : ℕ)
    (dt : K) : ℕ → Boid K :=
  (List.range n).foldl (fun bs i => Function.update bs i (update_boid L P g bs i dt)) boids

/-- Modelled from the spec: `GuiSliderBar` of `raygui.h`, which is not among the sources.
A dragged slider stores the pointed value, an untouched one keeps the value, and the
value is kept between `min` and `max` ("clamped at the UI boundary"). -/
def GuiSliderBar (drag : Option K) (value min max : K) : K :=
  let v := match drag with
    | none => value
    | some v => v
  if v < min then min else if v > max then max else v

/-- What the user does to the five sliders during one frame. -/
structure Controls (K : Type) where
  avoid_drag : Option K
  centering_drag : Option K
  matching_drag : Option K
  visual_drag : Option K
  protected_drag : Option K

/-- `draw_controls` (lines 290-304). -/
def draw_controls (ui : Controls K) (P : Params K) : Params K :=
  { avoid_factor := GuiSliderBar ui.avoid_drag P.avoid_factor 0 5
    centering_factor := GuiSliderBar ui.centering_drag P.centering_factor 0 5
    matching_factor := GuiSliderBar ui.matching_drag P.matching_factor 0 5
    visual_range := GuiSliderBar ui.visual_drag P.visual_range 10 300
    protected_range := GuiSliderBar ui.protected_drag P.protected_range 5 100 }

/-- The state of `main` at the head of the frame loop. -/
structure Sim (K : Type) where
  params : Params K
  grid : Grid
  boids : ℕ → Boid K

/-- The initial values of the five global parameters (lines 13-17). -/
def initial_params : Params K :=
  { avoid_factor := 1, centering_factor := 1, matching_factor := 1,
    visual_range := 75, protected_range := 20 }

/-- The state on entry to the frame loop (lines 309-320): the boids are random. -/
def main_init (fresh : ℤ → ℤ → BoidList) (boids : ℕ → Boid K) : Sim K :=
  { params := initial_params
    grid := init_grid SCREEN_WIDTH SCREEN_HEIGHT (initial_params : Params K).visual_range fresh
    boids := boids }

/-- One iteration of the frame loop (lines 323-344). -/
def main_frame (L : Libm K) (dt : K) (ui : Controls K) (s : Sim K) : Sim K :=
  let grid := rebuild_grid s.params s.grid s.boids N
  let boids := update_boids L s.params grid s.boids N dt
  { params := draw_controls ui s.params, grid := grid, boids := boids }

/-- The states that the head of the frame loop can be in. -/
inductive Reachable (L : Libm K) : Sim K → Prop
  | init (fresh : ℤ → ℤ → BoidList) (boids : ℕ → Boid K) : Reachable L (main_init fresh boids)
  | frame (dt : K) (ui : Controls K) (s : Sim K) :
      Reachable L s → Reachable L (main_frame L dt ui s)

/-! ## Concrete data for evaluation -/

/-- A boid at rest at `pos`, of the size `new_boid` gives (15). -/
def boid_at (pos vel : Vector2 K) : Boid K :=
  { pos := pos, vel := vel, v1 := ⟨0, 0⟩, v2 := ⟨0, 0⟩, v3 := ⟨0, 0⟩, angle_deg := 0, size := 15 }

/-- The 15 x 26 grid of the initial `visual_range`, with every cell empty. -/
def empty_grid : Grid := { rows := 15, cols := 26, cell := fun _ _ => BoidList.empty }

/-- The store of two boids `boids[0] = a`, `boids[1] = b`. -/
def two_boids (a b : Boid K) : ℕ → Boid K := fun i => if i = 0 then a else b

/-- A store whose boids all sit at (50, 500), inside the left margin, moving at (400, 0). -/
def margin_store : ℕ → Boid K := fun _ => boid_at ⟨50, 500⟩ ⟨400, 0⟩

/-- A store whose boids all sit at (500, 500), outside the margin, moving at (300, 400). -/
def inner_store : ℕ → Boid K := fun _ => boid_at ⟨500, 500⟩ ⟨300, 400⟩

/-- Boid 0 at (-150, 100) and boid 1 at (-160, 100), both left of the screen and at rest. -/
def offscreen_store : ℕ → Boid K :=
  two_boids (boid_at ⟨-150, 100⟩ ⟨0, 0⟩) (boid_at ⟨-160, 100⟩ ⟨0, 0⟩)

/-- The grid of `offscreen_store` after the rebuild, with the initial parameters. -/
def offscreen_grid : Grid :=
  rebuild_grid (initial_params : Params ℚ) empty_grid offscreen_store 2

/-- The scenario store: boid 0 (A) at (0, 0) and boid 1 (B) at (10, 0), both at rest. -/
def near_store : ℕ → Boid K :=
  two_boids (boid_at ⟨0, 0⟩ ⟨0, 0⟩) (boid_at ⟨10, 0⟩ ⟨0, 0⟩)

/-- The grid of `near_store` after `init_grid(1920, 1080, 75)` and the rebuild. -/
def near_grid : Grid :=
  rebuild_grid (initial_params : Params ℚ)
    (init_grid 1920 1080 (initial_params : Params ℚ).visual_range (fun _ _ => BoidList.empty))
    near_store 2

/-- The user drags the "Visual Range" slider to `v` and leaves the other sliders. -/
def drag_visual_range (v : K) : Controls K :=
  { avoid_drag := none, centering_drag := none, matching_drag := none,
    visual_drag := some v, protected_drag := none }

/-- The state of `main` after one frame of 1/60 s in which the user drags the
"Visual Range" slider to 10, started on the boids of `inner_store`. -/
def after_drag (L : Libm K) : Sim K :=
  main_frame L (1 / 60) (drag_visual_range 10)
    (main_init (fun _ _ => BoidList.empty) inner_store)

/-- Boid 0 at (100, 100) moving at (1, 0) and boid 1 at the same position moving at
(0, 1). -/
def coincident_store : ℕ → Boid K :=
  two_boids (boid_at ⟨100, 100⟩ ⟨1, 0⟩) (boid_at ⟨100, 100⟩ ⟨0, 1⟩)

/-- The grid of `coincident_store` after the rebuild, with the initial parameters. -/
def coincident_grid (K : Type) [LinearOrderedField K] [FloorRing K] : Grid :=
  rebuild_grid (initial_params : Params K) empty_grid coincident_store 2

/-- The alignment rule in the words of the claim: the candidates at distance less than
`visual_range`, with no other filter; zero when there is none, else the mean of their
velocities minus the velocity of `b`. -/
def alignment_spec (L : Libm K) (P : Params K) (g : Grid) (boids : ℕ → Boid K) (b : ℕ) :
    Vector2 K :=
  let Q := (visited P g boids b).filter (fun n =>
    decide (Vector2Distance L (boids b).pos (boids n).pos < P.visual_range))
  if Q = [] then Vector2Zero
  else
    ⟨(Q.map (fun n => (boids n).vel.x)).sum / (Q.length : K) - (boids b).vel.x,
     (Q.map (fun n => (boids n).vel.y)).sum / (Q.length : K) - (boids b).vel.y⟩

/-- The cells of the 3 x 3 block around the cell `for_neighbors` computes for `b`
(truncation, no clamp), without the rows and columns outside the grid, and the
candidates in them other than `b`, in the order of the loops. -/
def block_candidates (P : Params K) (g : Grid) (boids : ℕ → Boid K) (b : ℕ) : List ℕ :=
  let row := truncToInt ((boids b).pos.y / P.visual_range)
  let col := truncToInt ((boids b).pos.x / P.visual_range)
  ([row - 1, row, row + 1].filter (fun i => !decide (i < 0 ∨ i ≥ g.rows))).flatMap (fun i =>
    ([col - 1, col, col + 1].filter (fun j => !decide (j < 0 ∨ j ≥ g.cols))).flatMap (fun j =>
      (g.cell i j).data.filter (fun n => decide (n ≠ b))))

/-- The `desired_vel` of `update_boid` (lines 230-237). -/
def desired_vel (L : Libm K) (P : Params K) (g : Grid) (boids : ℕ → Boid K) (b : ℕ) :
    Vector2 K :=
  let separation_force := Vector2Scale (separation P g boids b) P.avoid_factor
  let cohesion_force := Vector2Scale (cohesion P g boids b) P.centering_factor
  let alignment_force := Vector2Scale (alignment L P g boids b) P.matching_factor
  let desired_vel := (boids b).vel
  let desired_vel := Vector2Add desired_vel alignment_force
  let desired_vel := Vector2Add desired_vel cohesion_force
  Vector2Add desired_vel separation_force

/-- The `diff` of `lerp_angle` after its correction (lines 187-188). -/
def lerp_angle_diff (a b : K) : K :=
  let diff := fmodf (b - a + 360) 360
  if diff > 180 then diff - 360 else diff

/-- A store whose boids all sit at (500, 500), moving at (500, 0). -/
def fast_store : ℕ → Boid K := fun _ => boid_at ⟨500, 500⟩ ⟨500, 0⟩

/-- A store whose boids all sit at (500, 500) with heading 0, moving at (0, -1). -/
def turning_store : ℕ → Boid K := fun _ => boid_at ⟨500, 500⟩ ⟨0, -1⟩

/-- One frame of `main` on a store of `n` boids (lines 323-338): the rebuild, then
`update_boid` on boids `0 .. n-1` in index order, on the live array. -/
def frame_step (L : Libm K) (P : Params K) (g : Grid) (boids : ℕ → Boid K) (n : ℕ)
    (dt : K) : ℕ → Boid K :=
  update_boids L P (rebuild_grid P g boids n) boids n dt

/-- The synchronous (Jacobi) step of the specification: after the rebuild, every boid is
computed from the start-of-frame store. -/
def sync_step (L : Libm K) (P : Params K) (g : Grid) (boids : ℕ → Boid K) (n : ℕ)
    (dt : K) : ℕ → Boid K :=
  fun i => if i < n then update_boid L P (rebuild_grid P g boids n) boids i dt else boids i

/-- Parameters with cohesion only: `centering_factor = 1`, the two other factors 0. -/
def cohesion_params : Params K :=
  { avoid_factor := 0, centering_factor := 1, matching_factor := 0,
    visual_range := 75, protected_range := 20 }

/-- Boid 0 at (500, 500) and boid 1 at (510, 500), both at rest. -/
def pair_store : ℕ → Boid K :=
  two_boids (boid_at ⟨500, 500⟩ ⟨0, 0⟩) (boid_at ⟨510, 500⟩ ⟨0, 0⟩)

/-! ## Machine arithmetic: the 32-bit `int` and the binary32 `float` -/

/-- `INT_MIN` of the 32-bit `int`. -/
def INT_MIN : ℤ := -2147483648

/-- `INT_MAX` of the 32-bit `int`. -/
def INT_MAX : ℤ := 2147483647

/-- The conversion `(int)x` into a 32-bit `int`: the truncation toward zero when that is
an `int`; otherwise C leaves the result undefined, and `ub` is the `int` the machine
delivers (`INT_MIN` on x86-64). -/
def float_to_int (ub : ℤ) (x : K) : ℤ :=
  if INT_MIN ≤ truncToInt x ∧ truncToInt x ≤ INT_MAX then truncToInt x else ub

/-- Rounding to the nearest binary32 `float`, ties to even: the significand has 24 bits;
the exponent range (overflow, subnormals) is left out. -/
def round_f32 (x : K) : K :=
  let e := Int.log 2 |x|
  let u : K := 2 ^ (e - 23)
  let m := ⌊x / u⌋
  let r := x / u - (m : K)
  if r < 1 / 2 then (m : K) * u
  else if 1 / 2 < r then ((m : K) + 1) * u
  else if m % 2 = 0 then (m : K) * u else ((m : K) + 1) * u

/-- The row that `add_boid_to_grid` computes (lines 89, 92-93) on the machine: `rnd` rounds
the quotient to a `float` and `(int)` converts into the 32-bit `int`. -/
def grid_row_f32 (rnd : K → K) (ub : ℤ) (P : Params K) (g : Grid) (pos : Vector2 K) : ℤ :=
  let row := float_to_int ub (rnd (pos.y / P.visual_range))
  let row := if row < 0 then 0 else row
  if row ≥ g.rows then g.rows - 1 else row

/-- The column that `add_boid_to_grid` computes (lines 90, 94-95) on the machine. -/
def grid_col_f32 (rnd : K → K) (ub : ℤ) (P : Params K) (g : Grid) (pos : Vector2 K) : ℤ :=
  let col := float_to_int ub (rnd (pos.x / P.visual_range))
  let col := if col < 0 then 0 else col
  if col ≥ g.cols then g.cols - 1 else col

/-- `init_grid` (lines 52-66) on the machine: the `int` arguments are converted to `float`,
the quotients are rounded to `float`, and `(int)` converts `ceilf` of them into the
32-bit `int`. -/
def init_grid_f32 (rnd : K → K) (ub : ℤ) (screen_width screen_height : ℤ) (visual_range : K)
    (fresh : ℤ → ℤ → BoidList) : Grid :=
  Grid.reset
    { rows := float_to_int ub ((⌈rnd (rnd (screen_height : K) / visual_range)⌉ : ℤ) : K)
      cols := float_to_int ub ((⌈rnd (rnd (screen_width : K) / visual_range)⌉ : ℤ) : K)
      cell := fresh }

/-- The initial parameters with `visual_range` moved by the slider to 192.66667
(12626603 / 65536, a `float`). -/
def slid_params : Params K :=
  { avoid_factor := 1, centering_factor := 1, matching_factor := 1,
    visual_range := 12626603 / 65536, protected_range := 20 }

/-- What the program assumes of `sqrtf` in exact arithmetic: the non-negative root. -/
def IsSqrt (f : K → K) : Prop := ∀ x, 0 ≤ x → 0 ≤ f x ∧ f x * f x = x

/-- The `clamp` of the specification. -/
def clamp_spec (v lo hi : ℤ) : ℤ := max lo (min v hi)

/-- The `cell_of` of the specification: floor, then clamp to the grid. -/
def cell_of_spec (P : Params K) (g : Grid) (pos : Vector2 K) : ℤ × ℤ :=
  (clamp_spec ⌊pos.y / P.visual_range⌋ 0 (g.rows - 1),
   clamp_spec ⌊pos.x / P.visual_range⌋ 0 (g.cols - 1))

end Model

section Theorems

variable {K : Type} [LinearOrderedField K] [FloorRing K]

/-! ## Loops as folds -/

theorem foldl_skip {α σ : Type} (l : List α) (p : α → Prop) [DecidablePred p]
    (body : σ → α → σ) (init : σ) :
    l.foldl (fun acc a => if p a then acc else body acc a) init
      = (l.filter (fun a => !decide (p a))).foldl body init := by
  induction l generalizing init with
  | nil => rfl
  | cons a l ih =>
    by_cases h : p a
    · simp [List.filter_cons, h, ih]
    · simp [List.filter_cons, h, ih]

theorem foldl_only {α σ : Type} (l : List α) (p : α → Prop) [DecidablePred p]
    (body : σ → α → σ) (init : σ) :
    l.foldl (fun acc a => if p a then body acc a else acc) init
      = (l.filter (fun a => decide (p a))).foldl body init := by
  induction l generalizing init with
  | nil => rfl
  | cons a l ih =>
    by_cases h : p a
    · simp [List.filter_cons, h, ih]
    · simp [List.filter_cons, h, ih]

theorem foldl_flatMap_eq {α β σ : Type} (l : List α) (F : α → List β) (h : σ → β → σ)
    (init : σ) :
    (l.flatMap F).foldl h init = l.foldl (fun acc a => (F a).foldl h acc) init := by
  induction l generalizing init with
  | nil => rfl
  | cons a l ih => simp [List.flatMap_cons, List.foldl_append, ih]

theorem foldl_snoc_eq {α : Type} (l acc : List α) :
    l.foldl (fun acc n => acc ++ [n]) acc = acc ++ l := by
  induction l generalizing acc with
  | nil => simp
  | cons a l ih => simp [ih]

/-- `for_neighbors` runs its callback over `block_candidates`, in order. -/
theorem for_neighbors_eq_foldl {σ : Type} (P : Params K) (g : Grid) (boids : ℕ → Boid K)
    (b : ℕ) (callback : ℕ → σ → σ) (user_data : σ) :
    for_neighbors P g boids b callback user_data
      = (block_candidates P g boids b).foldl (fun acc n => callback n acc) user_data := by
  unfold for_neighbors block_candidates
  simp only [foldl_flatMap_eq]
  rw [← foldl_skip]
  congr 1
  funext acc i
  split_ifs with hi
  · rfl
  · rw [← foldl_skip]
    congr 1
    funext acc j
    split_ifs with hj
    · rfl
    · rw [← foldl_only]

theorem visited_eq_block (P : Params K) (g : Grid) (boids : ℕ → Boid K) (b : ℕ) :
    visited P g boids b = block_candidates P g boids b := by
  unfold visited
  rw [for_neighbors_eq_foldl, foldl_snoc_eq]
  simp

theorem for_neighbors_eq_visited {σ : Type} (P : Params K) (g : Grid) (boids : ℕ → Boid K)
    (b : ℕ) (callback : ℕ → σ → σ) (user_data : σ) :
    for_neighbors P g boids b callback user_data
      = (visited P g boids b).foldl (fun acc n => callback n acc) user_data := by
  rw [visited_eq_block, for_neighbors_eq_foldl]

theorem mem_visited_iff (P : Params K) (g : Grid) (boids : ℕ → Boid K) (b n : ℕ) :
    n ∈ visited P g boids b ↔
      n ≠ b ∧ ∃ i j : ℤ,
        (i = truncToInt ((boids b).pos.y / P.visual_range) - 1 ∨
          i = truncToInt ((boids b).pos.y / P.visual_range) ∨
          i = truncToInt ((boids b).pos.y / P.visual_range) + 1) ∧
        (j = truncToInt ((boids b).pos.x / P.visual_range) - 1 ∨
          j = truncToInt ((boids b).pos.x / P.visual_range) ∨
          j = truncToInt ((boids b).pos.x / P.visual_range) + 1) ∧
        (0 ≤ i ∧ i < g.rows) ∧ (0 ≤ j ∧ j < g.cols) ∧ n ∈ (g.cell i j).data := by
  rw [visited_eq_block]
  unfold block_candidates
  simp only [List.mem_flatMap, List.mem_filter, List.mem_cons, List.mem_singleton,
    List.not_mem_nil, or_false, Bool.not_eq_true', decide_eq_false_iff_not, not_or, not_lt,
    not_le, decide_eq_true_eq, ge_iff_le]
  constructor
  · rintro ⟨i, ⟨hi, hi0, hi1⟩, j, ⟨hj, hj0, hj1⟩, hn, hb⟩
    exact ⟨hb, i, j, hi, hj, ⟨hi0, hi1⟩, ⟨hj0, hj1⟩, hn⟩
  · rintro ⟨hb, i, j, hi, hj, ⟨hi0, hi1⟩, ⟨hj0, hj1⟩, hn⟩
    exact ⟨i, ⟨hi, hi0, hi1⟩, j, ⟨hj, hj0, hj1⟩, hn, hb⟩

/-! ## The grid loops -/

theorem mem_range_toNat_iff (n r : ℤ) :
    (∃ i ∈ List.range n.toNat, r = (i : ℤ)) ↔ 0 ≤ r ∧ r < n := by
  constructor
  · rintro ⟨i, hi, rfl⟩
    rw [List.mem_range] at hi
    omega
  · rintro ⟨h0, h1⟩
    refine ⟨r.toNat, ?_, ?_⟩
    · rw [List.mem_range]; omega
    · omega

theorem set_row_fold (l : List ℕ) (i : ℤ) (g : Grid) :
    (l.foldl (fun g j => g.set i (j : ℤ) BoidList.empty) g).rows = g.rows ∧
    (l.foldl (fun g j => g.set i (j : ℤ) BoidList.empty) g).cols = g.cols ∧
    ∀ r c, (l.foldl (fun g j => g.set i (j : ℤ) BoidList.empty) g).cell r c
      = if r = i ∧ ∃ j ∈ l, c = (j : ℤ) then BoidList.empty else g.cell r c := by
  induction l generalizing g with
  | nil => simp
  | cons a l ih =>
    obtain ⟨h1, h2, h3⟩ := ih (g.set i (a : ℤ) BoidList.empty)
    refine ⟨by simpa [Grid.set] using h1, by simpa [Grid.set] using h2, ?_⟩
    intro r c
    rw [List.foldl_cons, h3]
    by_cases hr : r = i
    · by_cases hl : ∃ j ∈ l, c = (j : ℤ)
      · have : ∃ j ∈ a :: l, c = (j : ℤ) := by
          obtain ⟨j, hj, e⟩ := hl
          exact ⟨j, List.mem_cons_of_mem _ hj, e⟩
        simp [hr, hl, this]
      · by_cases ha : c = (a : ℤ)
        · simp [hr, ha, Grid.set]
        · have : ¬ ∃ j ∈ a :: l, c = (j : ℤ) := by
            rintro ⟨j, hj, e⟩
            rcases List.mem_cons.mp hj with rfl | hj
            · exact ha e
            · exact hl ⟨j, hj, e⟩
          simp [hr, hl, this, ha, Grid.set]
    · simp [hr, Grid.set]

theorem reset_fold (li : List ℕ) (g : Grid) :
    (li.foldl (fun g i =>
      (List.range g.cols.toNat).foldl (fun g j => g.set (i : ℤ) (j : ℤ) BoidList.empty) g)
      g).rows = g.rows ∧
    (li.foldl (fun g i =>
      (List.range g.cols.toNat).foldl (fun g j => g.set (i : ℤ) (j : ℤ) BoidList.empty) g)
      g).cols = g.cols ∧
    ∀ r c, (li.foldl (fun g i =>
      (List.range g.cols.toNat).foldl (fun g j => g.set (i : ℤ) (j : ℤ) BoidList.empty) g)
      g).cell r c
      = if (∃ i ∈ li, r = (i : ℤ)) ∧ (0 ≤ c ∧ c < g.cols) then BoidList.empty
        else g.cell r c := by
  induction li generalizing g with
  | nil => simp
  | cons a li ih =>
    obtain ⟨s1, s2, s3⟩ := set_row_fold (List.range g.cols.toNat) (a : ℤ) g
    obtain ⟨h1, h2, h3⟩ := ih
      ((List.range g.cols.toNat).foldl
        (fun (g : Grid) (j : ℕ) => g.set (a : ℤ) (j : ℤ) BoidList.empty) g)
    rw [List.foldl_cons]
    refine ⟨h1.trans s1, h2.trans s2, ?_⟩
    intro r c
    rw [h3, s2, s3]
    simp only [mem_range_toNat_iff]
    by_cases hc : 0 ≤ c ∧ c < g.cols
    · by_cases hl : ∃ i ∈ li, r = (i : ℤ)
      · have : ∃ i ∈ a :: li, r = (i : ℤ) := by
          obtain ⟨j, hj, e⟩ := hl
          exact ⟨j, List.mem_cons_of_mem _ hj, e⟩
        simp [hc, hl, this]
      · by_cases ha : r = (a : ℤ)
        · simp [hc, ha]
        · have : ¬ ∃ i ∈ a :: li, r = (i : ℤ) := by
            rintro ⟨j, hj, e⟩
            rcases List.mem_cons.mp hj with rfl | hj
            · exact ha e
            · exact hl ⟨j, hj, e⟩
          simp [hc, hl, this, ha]
    · simp [hc]

theorem reset_rows (g : Grid) : (Grid.reset g).rows = g.rows :=
  (reset_fold (List.range g.rows.toNat) g).1

theorem reset_cols (g : Grid) : (Grid.reset g).cols = g.cols :=
  (reset_fold (List.range g.rows.toNat) g).2.1

theorem reset_cell (g : Grid) (r c : ℤ) :
    (Grid.reset g).cell r c
      = if (0 ≤ r ∧ r < g.rows) ∧ (0 ≤ c ∧ c < g.cols) then BoidList.empty
        else g.cell r c := by
  have h := (reset_fold (List.range g.rows.toNat) g).2.2 r c
  simp only [mem_range_toNat_iff] at h
  exact h

theorem truncToInt_clamp (x : K) (n : ℤ) (hn : 1 ≤ n) :
    (let r := truncToInt x
     let r := if r < 0 then 0 else r
     if r ≥ n then n - 1 else r) = clamp_spec ⌊x⌋ 0 (n - 1) := by
  unfold truncToInt clamp_spec
  by_cases hx : 0 ≤ x
  · have h0 : 0 ≤ ⌊x⌋ := Int.floor_nonneg.mpr hx
    simp only [hx, if_true]
    split_ifs <;> omega
  · have hx' : x < 0 := lt_of_not_le hx
    have h0 : ⌊x⌋ < 0 := Int.floor_lt.mpr (by simpa using hx')
    have h1 : ⌈x⌉ ≤ 0 := Int.ceil_le.mpr (by simpa using hx'.le)
    simp only [hx, if_false]
    split_ifs <;> omega

theorem grid_row_eq_clamp (P : Params K) (g : Grid) (pos : Vector2 K) (hr : 1 ≤ g.rows) :
    grid_row P g pos = clamp_spec ⌊pos.y / P.visual_range⌋ 0 (g.rows - 1) :=
  truncToInt_clamp (pos.y / P.visual_range) g.rows hr

theorem grid_col_eq_clamp (P : Params K) (g : Grid) (pos : Vector2 K) (hc : 1 ≤ g.cols) :
    grid_col P g pos = clamp_spec ⌊pos.x / P.visual_range⌋ 0 (g.cols - 1) :=
  truncToInt_clamp (pos.x / P.visual_range) g.cols hc

theorem grid_row_range (P : Params K) (g : Grid) (pos : Vector2 K) (hr : 1 ≤ g.rows) :
    0 ≤ grid_row P g pos ∧ grid_row P g pos < g.rows := by
  rw [grid_row_eq_clamp P g pos hr]; unfold clamp_spec; omega

theorem grid_col_range (P : Params K) (g : Grid) (pos : Vector2 K) (hc : 1 ≤ g.cols) :
    0 ≤ grid_col P g pos ∧ grid_col P g pos < g.cols := by
  rw [grid_col_eq_clamp P g pos hc]; unfold clamp_spec; omega

theorem grid_row_congr (P : Params K) (g g' : Grid) (pos : Vector2 K) (h : g'.rows = g.rows) :
    grid_row P g' pos = grid_row P g pos := by
  unfold grid_row; rw [h]

theorem grid_col_congr (P : Params K) (g g' : Grid) (pos : Vector2 K) (h : g'.cols = g.cols) :
    grid_col P g' pos = grid_col P g pos := by
  unfold grid_col; rw [h]

theorem rebuild_grid_succ (P : Params K) (g : Grid) (boids : ℕ → Boid K) (n : ℕ) :
    rebuild_grid P g boids (n + 1) = add_boid_to_grid P (rebuild_grid P g boids n) boids n := by
  unfold rebuild_grid
  rw [List.range_succ, List.foldl_append]
  rfl

/-- The content of the grid after the rebuild: the dimensions are kept, a cell of the
grid holds the boids whose position maps to it, in index order, and what lies outside
the grid is not touched. -/
theorem rebuild_grid_spec (P : Params K) (g : Grid) (boids : ℕ → Boid K) (n : ℕ)
    (hr : 1 ≤ g.rows) (hc : 1 ≤ g.cols) :
    (rebuild_grid P g boids n).rows = g.rows ∧
    (rebuild_grid P g boids n).cols = g.cols ∧
    ∀ r c, ((rebuild_grid P g boids n).cell r c).data
      = if (0 ≤ r ∧ r < g.rows) ∧ (0 ≤ c ∧ c < g.cols) then
          (List.range n).filter (fun i =>
            decide (grid_row P g (boids i).pos = r ∧ grid_col P g (boids i).pos = c))
        else (g.cell r c).data := by
  induction n with
  | zero =>
    refine ⟨reset_rows g, reset_cols g, ?_⟩
    intro r c
    show ((Grid.reset g).cell r c).data = _
    rw [reset_cell]
    split_ifs <;> simp [BoidList.empty]
  | succ n ih =>
    obtain ⟨h1, h2, h3⟩ := ih
    rw [rebuild_grid_succ]
    refine ⟨h1, h2, ?_⟩
    intro r c
    have er := grid_row_congr P g (rebuild_grid P g boids n) (boids n).pos h1
    have ec := grid_col_congr P g (rebuild_grid P g boids n) (boids n).pos h2
    have rr := grid_row_range P g (boids n).pos hr
    have rc := grid_col_range P g (boids n).pos hc
    show BoidList.data (if r = grid_row P (rebuild_grid P g boids n) (boids n).pos ∧
            c = grid_col P (rebuild_grid P g boids n) (boids n).pos then _ else _) = _
    rw [er, ec]
    by_cases h : r = grid_row P g (boids n).pos ∧ c = grid_col P g (boids n).pos
    · obtain ⟨e1, e2⟩ := h
      subst e1 e2
      simp only [and_self, if_true, boidlist_add, h3, rr, rc, List.range_succ,
        List.filter_append, List.filter_cons, List.filter_nil, decide_True]
    · rw [if_neg h, h3]
      have h' : ¬ (grid_row P g (boids n).pos = r ∧ grid_col P g (boids n).pos = c) :=
        fun ⟨a, b⟩ => h ⟨a.symm, b.symm⟩
      simp [List.range_succ, List.filter_append, List.filter_cons, h']

theorem truncToInt_of_nonneg (x : K) (hx : 0 ≤ x) : truncToInt x = ⌊x⌋ := by
  unfold truncToInt; rw [if_pos hx]

theorem floor_near (x y : K) (h : |x - y| < 1) :
    ⌊y⌋ - 1 ≤ ⌊x⌋ ∧ ⌊x⌋ ≤ ⌊y⌋ + 1 := by
  obtain ⟨h1, h2⟩ := abs_lt.mp h
  constructor
  · have : ⌊y - 1⌋ ≤ ⌊x⌋ := Int.floor_le_floor (by linarith)
    rwa [Int.floor_sub_one] at this
  · have : ⌊x⌋ ≤ ⌊y + 1⌋ := Int.floor_le_floor (by linarith)
    rwa [Int.floor_add_one] at this

/-- One axis of the block argument: two coordinates in `[0, D]` that are less than
`vr` apart fall in cells that differ by at most one, also after the clamp. -/
theorem axis_block (vr D pa pb : K) (hvr : 0 < vr) (hD : 0 < D) (ha : 0 ≤ pa)
    (ha' : pa ≤ D) (hb : 0 ≤ pb) (hd : |pa - pb| < vr) :
    1 ≤ ⌈D / vr⌉ ∧
    (clamp_spec ⌊pb / vr⌋ 0 (⌈D / vr⌉ - 1) = truncToInt (pa / vr) - 1 ∨
      clamp_spec ⌊pb / vr⌋ 0 (⌈D / vr⌉ - 1) = truncToInt (pa / vr) ∨
      clamp_spec ⌊pb / vr⌋ 0 (⌈D / vr⌉ - 1) = truncToInt (pa / vr) + 1) := by
  have hR : 1 ≤ ⌈D / vr⌉ := Int.one_le_ceil_iff.mpr (div_pos hD hvr)
  have ha0 : 0 ≤ pa / vr := div_nonneg ha hvr.le
  have hb0 : 0 ≤ pb / vr := div_nonneg hb hvr.le
  have hfa : 0 ≤ ⌊pa / vr⌋ := Int.floor_nonneg.mpr ha0
  have hfb : 0 ≤ ⌊pb / vr⌋ := Int.floor_nonneg.mpr hb0
  have hle : pa / vr ≤ ((⌈D / vr⌉ : ℤ) : K) :=
    le_trans (div_le_div_of_nonneg_right ha' hvr.le) (Int.le_ceil _)
  have hfa' : ⌊pa / vr⌋ ≤ ⌈D / vr⌉ := by
    have := Int.floor_le_floor hle
    rwa [Int.floor_intCast] at this
  have hnear : |pa / vr - pb / vr| < 1 := by
    rw [← sub_div, abs_div, abs_of_pos hvr]
    exact (div_lt_one hvr).mpr hd
  obtain ⟨n1, n2⟩ := floor_near (pa / vr) (pb / vr) hnear
  rw [truncToInt_of_nonneg _ ha0]
  refine ⟨hR, ?_⟩
  unfold clamp_spec
  omega

theorem abs_sub_lt_of_distSqr (a b : Vector2 K) (vr : K) (hvr : 0 < vr)
    (hd : Vector2DistanceSqr a b < vr * vr) : |a.x - b.x| < vr ∧ |a.y - b.y| < vr := by
  unfold Vector2DistanceSqr at hd
  have hx := mul_self_nonneg (a.x - b.x)
  have hy := mul_self_nonneg (a.y - b.y)
  constructor
  · exact abs_lt.mpr ⟨by nlinarith, by nlinarith⟩
  · exact abs_lt.mpr ⟨by nlinarith, by nlinarith⟩

/-! ## Claims -/

theorem update_boid_vel (L : Libm K) (P : Params K) (g : Grid) (boids : ℕ → Boid K) (b : ℕ)
    (dt : K) :
    (update_boid L P g boids b dt).vel
      = ⟨bound_vel_x (update_boid L P g boids b dt).pos
            (clamp_speed L (smoothed_vel L P g boids b)),
          bound_vel_y (update_boid L P g boids b dt).pos
            (clamp_speed L (smoothed_vel L P g boids b))⟩ := rfl

theorem update_boid_pos (L : Libm K) (P : Params K) (g : Grid) (boids : ℕ → Boid K) (b : ℕ)
    (dt : K) :
    (update_boid L P g boids b dt).pos
      = Vector2Add (boids b).pos
          (Vector2Scale (clamp_speed L (smoothed_vel L P g boids b)) dt) := rfl

theorem sqrt_unique (f : K → K) (hf : IsSqrt f) (r : K) (hr : 0 ≤ r) : f (r * r) = r := by
  obtain ⟨h0, h1⟩ := hf (r * r) (mul_self_nonneg r)
  generalize f (r * r) = s at h0 h1
  have h3 : (s - r) * (s + r) = s * s - r * r := by ring
  have h2 : (s - r) * (s + r) = 0 := by rw [h3, h1, sub_self]
  rcases mul_eq_zero.mp h2 with h | h
  · linarith
  · linarith

/-- In exact arithmetic, with `sqrtf` the exact root, the speed clamp leaves a velocity of
length at most 400. -/
theorem clamp_speed_le (L : Libm K) (hL : IsSqrt L.sqrtf) (v : Vector2 K) :
    Vector2Length L (clamp_speed L v) ≤ 400 := by
  unfold clamp_speed
  simp only
  split_ifs with h
  · obtain ⟨h0, h1⟩ := hL (v.x * v.x + v.y * v.y)
      (add_nonneg (mul_self_nonneg _) (mul_self_nonneg _))
    have hpos : 0 < L.sqrtf (v.x * v.x + v.y * v.y) := by
      unfold Vector2Length at h; linarith
    have hne : L.sqrtf (v.x * v.x + v.y * v.y) ≠ 0 := ne_of_gt hpos
    unfold Vector2Length Vector2Scale Vector2Normalize
    simp only [gt_iff_lt, hpos, if_true]
    have e : v.x * (1 / L.sqrtf (v.x * v.x + v.y * v.y)) * 400 *
          (v.x * (1 / L.sqrtf (v.x * v.x + v.y * v.y)) * 400) +
        v.y * (1 / L.sqrtf (v.x * v.x + v.y * v.y)) * 400 *
          (v.y * (1 / L.sqrtf (v.x * v.x + v.y * v.y)) * 400) = 400 * 400 := by
      field_simp
      nlinarith [h1]
    rw [e, sqrt_unique L.sqrtf hL 400 (by norm_num)]
  · exact le_of_not_lt h

/-! ## Evaluation on concrete states -/

theorem for_neighbors_empty_grid {K : Type} [LinearOrderedField K] [FloorRing K] {σ : Type}
    (P : Params K) (boids : ℕ → Boid K) (b : ℕ) (callback : ℕ → σ → σ) (user_data : σ) :
    for_neighbors P empty_grid boids b callback user_data = user_data := by
  simp [for_neighbors, empty_grid, BoidList.empty]

theorem smoothed_vel_empty_grid {K : Type} [LinearOrderedField K] [FloorRing K]
    (L : Libm K) (P : Params K) (boids : ℕ → Boid K) (b : ℕ) :
    smoothed_vel L P empty_grid boids b = (boids b).vel := by
  unfold smoothed_vel separation cohesion alignment
  simp only [for_neighbors_empty_grid]
  ext <;> simp [Vector2Lerp, Vector2Add, Vector2Scale, Vector2Zero]

theorem empty_grid_rows : (1 : ℤ) ≤ empty_grid.rows := by decide

theorem empty_grid_cols : (1 : ℤ) ≤ empty_grid.cols := by decide

/-- C2 (the code at the failing input): boid 0 at (-150, 100) and boid 1 at (-160, 100),
10 apart, `visual_range = 75`, on the 15 x 26 grid.  The rebuild stores both in cell
(1, 0), the clamped cell of boid 0, but `for_neighbors` on boid 0 computes column -2
without the clamp, finds columns -3, -2, -1 outside the grid, and hands nothing to its
callback. -/
theorem for_neighbors_skips_own_cell :
    grid_row (initial_params : Params ℚ) offscreen_grid (offscreen_store 0).pos = 1 ∧
    grid_col (initial_params : Params ℚ) offscreen_grid (offscreen_store 0).pos = 0 ∧
    (offscreen_grid.cell 1 0).data = [0, 1] ∧
    visited (initial_params : Params ℚ) offscreen_grid offscreen_store 0 = [] := by
  obtain ⟨h1, h2, h3⟩ := rebuild_grid_spec (initial_params : Params ℚ) empty_grid
    offscreen_store 2 empty_grid_rows empty_grid_cols
  refine ⟨?_, ?_, ?_, ?_⟩
  · unfold offscreen_grid
    rw [grid_row_congr _ _ _ _ h1]
    norm_num [grid_row, truncToInt, offscreen_store, two_boids, boid_at, initial_params,
      empty_grid, Int.ceil_neg]
  · unfold offscreen_grid
    rw [grid_col_congr _ _ _ _ h2]
    norm_num [grid_col, truncToInt, offscreen_store, two_boids, boid_at, initial_params,
      empty_grid, Int.ceil_neg]
  · unfold offscreen_grid
    rw [h3]
    norm_num [grid_row, grid_col, truncToInt, offscreen_store, two_boids, boid_at,
      initial_params, empty_grid, List.range_succ, List.filter_cons, Int.ceil_neg]
  · rw [visited_eq_block]
    unfold block_candidates offscreen_grid
    rw [h1, h2]
    norm_num [truncToInt, offscreen_store, two_boids, boid_at, initial_params, empty_grid, Int.ceil_neg]

/-- C10: the velocity `update_boid` holds after the smoothing step is
`v + 0.1 * (avoid_factor * separation + centering_factor * cohesion +
matching_factor * alignment)`, with `v` and the three forces taken on the state on
entry; `dt` does not occur in it. -/
theorem smoothed_vel_formula (L : Libm K) (P : Params K) (g : Grid) (boids : ℕ → Boid K)
    (b : ℕ) :
    smoothed_vel L P g boids b
      = ⟨(boids b).vel.x + 1 / 10 *
            (P.avoid_factor * (separation P g boids b).x +
              P.centering_factor * (cohesion P g boids b).x +
              P.matching_factor * (alignment L P g boids b).x),
          (boids b).vel.y + 1 / 10 *
            (P.avoid_factor * (separation P g boids b).y +
              P.centering_factor * (cohesion P g boids b).y +
              P.matching_factor * (alignment L P g boids b).y)⟩ := by
  unfold smoothed_vel
  ext <;> simp only [Vector2Lerp, Vector2Add, Vector2Scale] <;> ring

theorem init_grid_rows (w h : ℤ) (vr : K) (fresh : ℤ → ℤ → BoidList) :
    (init_grid w h vr fresh).rows = ⌈(h : K) / vr⌉ := by
  unfold init_grid; rw [reset_rows]

theorem init_grid_cols (w h : ℤ) (vr : K) (fresh : ℤ → ℤ → BoidList) :
    (init_grid w h vr fresh).cols = ⌈(w : K) / vr⌉ := by
  unfold init_grid; rw [reset_cols]

/-- C3: on the grid that `init_grid(1920, 1080, vr)` creates, rebuilt from a store whose
positions lie in the screen rectangle, with `vr > 0` the `visual_range` in force,
`for_neighbors(a, ...)` hands to its callback every other boid `b` at Euclidean distance
less than `vr` from `a` (squared distance less than `vr * vr`). -/
theorem true_neighbours_visited (P : Params K) (fresh : ℤ → ℤ → BoidList)
    (boids : ℕ → Boid K) (n a b : ℕ) (hvr : 0 < P.visual_range)
    (hpos : ∀ i, i < n →
      (0 ≤ (boids i).pos.x ∧ (boids i).pos.x ≤ 1920) ∧
      (0 ≤ (boids i).pos.y ∧ (boids i).pos.y ≤ 1080))
    (ha : a < n) (hb : b < n) (hab : a ≠ b)
    (hd : Vector2DistanceSqr (boids a).pos (boids b).pos
      < P.visual_range * P.visual_range) :
    b ∈ visited P (rebuild_grid P (init_grid 1920 1080 P.visual_range fresh) boids n)
      boids a := by
  have hrows : (init_grid 1920 1080 P.visual_range fresh).rows
      = ⌈(1080 : K) / P.visual_range⌉ := by
    rw [init_grid_rows]; norm_num
  have hcols : (init_grid 1920 1080 P.visual_range fresh).cols
      = ⌈(1920 : K) / P.visual_range⌉ := by
    rw [init_grid_cols]; norm_num
  obtain ⟨⟨ax0, ax1⟩, ⟨ay0, ay1⟩⟩ := hpos a ha
  obtain ⟨⟨bx0, _⟩, ⟨by0, _⟩⟩ := hpos b hb
  obtain ⟨dx, dy⟩ := abs_sub_lt_of_distSqr _ _ _ hvr hd
  obtain ⟨hR, hrow⟩ := axis_block P.visual_range 1080 (boids a).pos.y (boids b).pos.y hvr
    (by norm_num) ay0 ay1 by0 dy
  obtain ⟨hC, hcol⟩ := axis_block P.visual_range 1920 (boids a).pos.x (boids b).pos.x hvr
    (by norm_num) ax0 ax1 bx0 dx
  rw [← hrows] at hR hrow
  rw [← hcols] at hC hcol
  obtain ⟨s1, s2, s3⟩ := rebuild_grid_spec P (init_grid 1920 1080 P.visual_range fresh)
    boids n hR hC
  have rr := grid_row_range P (init_grid 1920 1080 P.visual_range fresh) (boids b).pos hR
  have rc := grid_col_range P (init_grid 1920 1080 P.visual_range fresh) (boids b).pos hC
  rw [mem_visited_iff]
  refine ⟨hab.symm, grid_row P (init_grid 1920 1080 P.visual_range fresh) (boids b).pos,
    grid_col P (init_grid 1920 1080 P.visual_range fresh) (boids b).pos, ?_, ?_, ?_, ?_, ?_⟩
  · rw [grid_row_eq_clamp _ _ _ hR]; exact hrow
  · rw [grid_col_eq_clamp _ _ _ hC]; exact hcol
  · rw [s1]; exact rr
  · rw [s2]; exact rc
  · rw [s3, if_pos ⟨rr, rc⟩, List.mem_filter, List.mem_range]
    exact ⟨hb, by simp⟩

/-- C3 (witness): A at (0, 0) and B at (10, 0) with `visual_range = 75`. -/
theorem true_neighbours_visited_witness :
    (0 < (initial_params : Params ℚ).visual_range ∧
      (∀ i, i < 2 →
        (0 ≤ ((near_store : ℕ → Boid ℚ) i).pos.x ∧
          ((near_store : ℕ → Boid ℚ) i).pos.x ≤ 1920) ∧
        (0 ≤ ((near_store : ℕ → Boid ℚ) i).pos.y ∧
          ((near_store : ℕ → Boid ℚ) i).pos.y ≤ 1080)) ∧
      Vector2DistanceSqr ((near_store : ℕ → Boid ℚ) 0).pos ((near_store : ℕ → Boid ℚ) 1).pos
        < (initial_params : Params ℚ).visual_range * (initial_params : Params ℚ).visual_range) ∧
    1 ∈ visited (initial_params : Params ℚ) near_grid near_store 0 :=
  have h1 : 0 < (initial_params : Params ℚ).visual_range := by norm_num [initial_params]
  have h2 : ∀ i, i < 2 →
        (0 ≤ ((near_store : ℕ → Boid ℚ) i).pos.x ∧
          ((near_store : ℕ → Boid ℚ) i).pos.x ≤ 1920) ∧
        (0 ≤ ((near_store : ℕ → Boid ℚ) i).pos.y ∧
          ((near_store : ℕ → Boid ℚ) i).pos.y ≤ 1080) := by
    intro i hi
    interval_cases i <;> norm_num [near_store, two_boids, boid_at]
  have h3 : Vector2DistanceSqr ((near_store : ℕ → Boid ℚ) 0).pos
      ((near_store : ℕ → Boid ℚ) 1).pos
        < (initial_params : Params ℚ).visual_range *
          (initial_params : Params ℚ).visual_range := by
    norm_num [Vector2DistanceSqr, near_store, two_boids, boid_at, initial_params]
  ⟨⟨h1, h2, h3⟩,
    true_neighbours_visited initial_params (fun _ _ => BoidList.empty) near_store 2 0 1
      h1 h2 (by decide) (by decide) (by decide) h3⟩

theorem count_filter_range (n i : ℕ) (p : ℕ → Bool) (hi : i < n) :
    ((List.range n).filter p).count i = if p i = true then 1 else 0 := by
  by_cases h : p i = true
  · rw [if_pos h, List.count_filter h]
    exact List.count_eq_one_of_mem (List.nodup_range n) (List.mem_range.mpr hi)
  · rw [if_neg h, List.count_eq_zero, List.mem_filter]
    exact fun hm => h hm.2

theorem sum_cells_indicator (rows cols a b : ℤ) (ha : 0 ≤ a ∧ a < rows)
    (hb : 0 ≤ b ∧ b < cols) :
    Finset.sum (Finset.Ico 0 rows) (fun r => Finset.sum (Finset.Ico 0 cols) (fun c =>
      if a = r ∧ b = c then 1 else 0)) = 1 := by
  simp [ite_and, Finset.sum_ite_eq, Finset.mem_Ico, ha, hb]

theorem sum_cells_length (rows cols : ℤ) (fr fc : ℕ → ℤ) (l : List ℕ)
    (hf : ∀ i ∈ l, (0 ≤ fr i ∧ fr i < rows) ∧ (0 ≤ fc i ∧ fc i < cols)) :
    Finset.sum (Finset.Ico 0 rows) (fun r => Finset.sum (Finset.Ico 0 cols) (fun c =>
      (l.filter (fun i => decide (fr i = r ∧ fc i = c))).length)) = l.length := by
  induction l with
  | nil => simp
  | cons a l ih =>
    have e : ∀ r c, ((a :: l).filter (fun i => decide (fr i = r ∧ fc i = c))).length
        = (l.filter (fun i => decide (fr i = r ∧ fc i = c))).length
          + (if fr a = r ∧ fc a = c then 1 else 0) := by
      intro r c
      by_cases h : fr a = r ∧ fc a = c
      · simp [List.filter_cons, h]
      · simp [List.filter_cons, h]
    simp only [e, Finset.sum_add_distrib]
    rw [ih (fun i hi => hf i (List.mem_cons_of_mem _ hi)),
      sum_cells_indicator rows cols (fr a) (fc a) (hf a (List.mem_cons_self _ _)).1
        (hf a (List.mem_cons_self _ _)).2]
    simp

/-- C4: after the rebuild, starting from any grid content, every boid of the store
lies in the grid cell its position maps to and in no other cell, once (so once in the
whole grid); the cells of the grid hold nothing but boids of the store; and the counts
of the cells of the grid add up to the number of boids. -/
theorem rebuild_partition (P : Params K) (g : Grid) (boids : ℕ → Boid K) (n : ℕ)
    (hr : 1 ≤ g.rows) (hc : 1 ≤ g.cols) :
    (∀ i, i < n →
      ((0 ≤ grid_row P (rebuild_grid P g boids n) (boids i).pos ∧
          grid_row P (rebuild_grid P g boids n) (boids i).pos
            < (rebuild_grid P g boids n).rows) ∧
        (0 ≤ grid_col P (rebuild_grid P g boids n) (boids i).pos ∧
          grid_col P (rebuild_grid P g boids n) (boids i).pos
            < (rebuild_grid P g boids n).cols)) ∧
      (∀ r c, 0 ≤ r ∧ r < (rebuild_grid P g boids n).rows →
        0 ≤ c ∧ c < (rebuild_grid P g boids n).cols →
        ((rebuild_grid P g boids n).cell r c).data.count i
          = if grid_row P (rebuild_grid P g boids n) (boids i).pos = r ∧
              grid_col P (rebuild_grid P g boids n) (boids i).pos = c then 1 else 0) ∧
      Finset.sum (Finset.Ico 0 (rebuild_grid P g boids n).rows) (fun r =>
        Finset.sum (Finset.Ico 0 (rebuild_grid P g boids n).cols) (fun c =>
          ((rebuild_grid P g boids n).cell r c).data.count i)) = 1) ∧
    (∀ r c, 0 ≤ r ∧ r < (rebuild_grid P g boids n).rows →
      0 ≤ c ∧ c < (rebuild_grid P g boids n).cols →
      ∀ x ∈ ((rebuild_grid P g boids n).cell r c).data, x < n) ∧
    Finset.sum (Finset.Ico 0 (rebuild_grid P g boids n).rows) (fun r =>
      Finset.sum (Finset.Ico 0 (rebuild_grid P g boids n).cols) (fun c =>
        ((rebuild_grid P g boids n).cell r c).count)) = n := by
  obtain ⟨s1, s2, s3⟩ := rebuild_grid_spec P g boids n hr hc
  have er : ∀ pos, grid_row P (rebuild_grid P g boids n) pos = grid_row P g pos :=
    fun pos => grid_row_congr P g _ pos s1
  have ec : ∀ pos, grid_col P (rebuild_grid P g boids n) pos = grid_col P g pos :=
    fun pos => grid_col_congr P g _ pos s2
  simp only [er, ec, s1, s2, BoidList.count]
  have cell : ∀ r c, 0 ≤ r ∧ r < g.rows → 0 ≤ c ∧ c < g.cols →
      ((rebuild_grid P g boids n).cell r c).data = (List.range n).filter (fun i =>
        decide (grid_row P g (boids i).pos = r ∧ grid_col P g (boids i).pos = c)) := by
    intro r c h1 h2
    rw [s3, if_pos ⟨h1, h2⟩]
  have cnt : ∀ i, i < n → ∀ r c, 0 ≤ r ∧ r < g.rows → 0 ≤ c ∧ c < g.cols →
      ((rebuild_grid P g boids n).cell r c).data.count i
        = if grid_row P g (boids i).pos = r ∧ grid_col P g (boids i).pos = c then 1
          else 0 := by
    intro i hi r c h1 h2
    rw [cell r c h1 h2, count_filter_range n i _ hi]
    simp
  refine ⟨?_, ?_, ?_⟩
  · intro i hi
    refine ⟨⟨grid_row_range P g _ hr, grid_col_range P g _ hc⟩, cnt i hi, ?_⟩
    rw [← sum_cells_indicator g.rows g.cols (grid_row P g (boids i).pos)
      (grid_col P g (boids i).pos) (grid_row_range P g _ hr) (grid_col_range P g _ hc)]
    refine Finset.sum_congr rfl (fun r hr' => Finset.sum_congr rfl (fun c hc' => ?_))
    exact cnt i hi r c (Finset.mem_Ico.mp hr') (Finset.mem_Ico.mp hc')
  · intro r c h1 h2 x hx
    rw [cell r c h1 h2, List.mem_filter, List.mem_range] at hx
    exact hx.1
  · have key := sum_cells_length g.rows g.cols (fun i => grid_row P g (boids i).pos)
      (fun i => grid_col P g (boids i).pos) (List.range n)
      (fun i _ => ⟨grid_row_range P g _ hr, grid_col_range P g _ hc⟩)
    rw [List.length_range] at key
    refine Eq.trans ?_ key
    refine Finset.sum_congr rfl (fun r hr' => Finset.sum_congr rfl (fun c hc' => ?_))
    rw [cell r c (Finset.mem_Ico.mp hr') (Finset.mem_Ico.mp hc')]

/-- C4 (witness): the two boids of `near_store` on the 15 x 26 grid. -/
theorem rebuild_partition_witness :
    (1 ≤ empty_grid.rows ∧ 1 ≤ empty_grid.cols) ∧
    (∀ r c, 0 ≤ r ∧ r < (rebuild_grid (initial_params : Params ℚ) empty_grid near_store 2).rows →
      0 ≤ c ∧ c < (rebuild_grid (initial_params : Params ℚ) empty_grid near_store 2).cols →
      ∀ x ∈ ((rebuild_grid (initial_params : Params ℚ) empty_grid near_store 2).cell r c).data,
        x < 2) ∧
    Finset.sum (Finset.Ico 0 (rebuild_grid (initial_params : Params ℚ) empty_grid near_store 2).rows)
      (fun r => Finset.sum
        (Finset.Ico 0 (rebuild_grid (initial_params : Params ℚ) empty_grid near_store 2).cols)
        (fun c =>
          ((rebuild_grid (initial_params : Params ℚ) empty_grid near_store 2).cell r c).count))
      = 2 :=
  ⟨⟨empty_grid_rows, empty_grid_cols⟩,
    (rebuild_partition (initial_params : Params ℚ) empty_grid near_store 2
      empty_grid_rows empty_grid_cols).2⟩

theorem rebuild_grid_rows (P : Params K) (g : Grid) (boids : ℕ → Boid K) (n : ℕ) :
    (rebuild_grid P g boids n).rows = g.rows := by
  induction n with
  | zero => exact reset_rows g
  | succ n ih => rw [rebuild_grid_succ]; exact ih

theorem rebuild_grid_cols (P : Params K) (g : Grid) (boids : ℕ → Boid K) (n : ℕ) :
    (rebuild_grid P g boids n).cols = g.cols := by
  induction n with
  | zero => exact reset_cols g
  | succ n ih => rw [rebuild_grid_succ]; exact ih

theorem ceil_1080_75 : ⌈(1080 : K) / 75⌉ = 15 := by
  rw [Int.ceil_eq_iff]; norm_num

theorem ceil_1920_75 : ⌈(1920 : K) / 75⌉ = 26 := by
  rw [Int.ceil_eq_iff]; norm_num

theorem main_init_rows (fresh : ℤ → ℤ → BoidList) (boids : ℕ → Boid K) :
    (main_init fresh boids).grid.rows = 15 := by
  show (init_grid SCREEN_WIDTH SCREEN_HEIGHT (initial_params : Params K).visual_range
    fresh).rows = 15
  rw [init_grid_rows]
  simp only [SCREEN_HEIGHT, initial_params]
  push_cast
  exact ceil_1080_75

theorem main_init_cols (fresh : ℤ → ℤ → BoidList) (boids : ℕ → Boid K) :
    (main_init fresh boids).grid.cols = 26 := by
  show (init_grid SCREEN_WIDTH SCREEN_HEIGHT (initial_params : Params K).visual_range
    fresh).cols = 26
  rw [init_grid_cols]
  simp only [SCREEN_WIDTH, initial_params]
  push_cast
  exact ceil_1920_75

theorem main_frame_grid (L : Libm K) (dt : K) (ui : Controls K) (s : Sim K) :
    (main_frame L dt ui s).grid = rebuild_grid s.params s.grid s.boids N := by
  simp only [main_frame]

theorem main_frame_params (L : Libm K) (dt : K) (ui : Controls K) (s : Sim K) :
    (main_frame L dt ui s).params = draw_controls ui s.params := by
  simp only [main_frame]

theorem reachable_dims (L : Libm K) (s : Sim K) (h : Reachable L s) :
    s.grid.rows = 15 ∧ s.grid.cols = 26 := by
  induction h with
  | init fresh boids => exact ⟨main_init_rows fresh boids, main_init_cols fresh boids⟩
  | frame dt ui s _ ih =>
    rw [main_frame_grid, rebuild_grid_rows, rebuild_grid_cols]
    exact ih

/-- C6 (as amended): at the head of every frame the grid has the dimensions that
`init_grid` computed before the loop from the initial `visual_range` (75), that is
`ceil(1080/75) = 15` rows and `ceil(1920/75) = 26` columns, whatever the sliders have
been set to since. -/
theorem grid_dims_fixed_at_startup (L : Libm K) (s : Sim K) (h : Reachable L s) :
    (s.grid.rows = ⌈((SCREEN_HEIGHT : ℤ) : K) / (initial_params : Params K).visual_range⌉ ∧
      s.grid.cols = ⌈((SCREEN_WIDTH : ℤ) : K) / (initial_params : Params K).visual_range⌉) ∧
    (s.grid.rows = 15 ∧ s.grid.cols = 26) := by
  have key := reachable_dims L s h
  refine ⟨⟨?_, ?_⟩, key⟩
  · rw [key.1]; simp only [SCREEN_HEIGHT, initial_params]; push_cast
    exact ceil_1080_75.symm
  · rw [key.2]; simp only [SCREEN_WIDTH, initial_params]; push_cast
    exact ceil_1920_75.symm

theorem after_drag_reachable {K : Type} [LinearOrderedField K] [FloorRing K] (L : Libm K) :
    Reachable L (after_drag L) :=
  Reachable.frame _ _ _ (Reachable.init _ _)

/-- C6 (counterexample): after one frame in which the user drags the "Visual Range"
slider to 10, the state at the head of the next frame has `visual_range = 10` and still
the 15 x 26 grid, while `ceil(1080/10) = 108` and `ceil(1920/10) = 192`. -/
theorem grid_dims_stale_after_drag :
    Reachable (Libm.mk Real.sqrt (fun y x => Complex.arg ⟨x, y⟩) Real.sin Real.cos Real.pi)
      (after_drag
        (Libm.mk Real.sqrt (fun y x => Complex.arg ⟨x, y⟩) Real.sin Real.cos Real.pi)) ∧
    (after_drag (Libm.mk Real.sqrt (fun y x => Complex.arg ⟨x, y⟩) Real.sin Real.cos
      Real.pi)).params.visual_range = 10 ∧
    ((after_drag (Libm.mk Real.sqrt (fun y x => Complex.arg ⟨x, y⟩) Real.sin Real.cos
      Real.pi)).grid.rows = 15 ∧
     ⌈(1080 : ℝ) / (after_drag (Libm.mk Real.sqrt (fun y x => Complex.arg ⟨x, y⟩) Real.sin
      Real.cos Real.pi)).params.visual_range⌉ = 108) ∧
    ((after_drag (Libm.mk Real.sqrt (fun y x => Complex.arg ⟨x, y⟩) Real.sin Real.cos
      Real.pi)).grid.cols = 26 ∧
     ⌈(1920 : ℝ) / (after_drag (Libm.mk Real.sqrt (fun y x => Complex.arg ⟨x, y⟩) Real.sin
      Real.cos Real.pi)).params.visual_range⌉ = 192) := by
  have hv : (after_drag (Libm.mk Real.sqrt (fun y x => Complex.arg ⟨x, y⟩) Real.sin Real.cos
      Real.pi)).params.visual_range = 10 := by
    unfold after_drag
    rw [main_frame_params]
    norm_num [draw_controls, drag_visual_range, GuiSliderBar]
  obtain ⟨hr, hc⟩ := reachable_dims _ _ (after_drag_reachable
    (Libm.mk Real.sqrt (fun y x => Complex.arg ⟨x, y⟩) Real.sin Real.cos Real.pi))
  refine ⟨after_drag_reachable _, hv, ⟨hr, ?_⟩, ⟨hc, ?_⟩⟩
  · rw [hv, Int.ceil_eq_iff]; norm_num
  · rw [hv, Int.ceil_eq_iff]; norm_num

/-- C6 (witness): the state after one frame in which the slider was dragged to 10. -/
theorem grid_dims_fixed_at_startup_witness :
    Reachable (Libm.mk Real.sqrt (fun y x => Complex.arg ⟨x, y⟩) Real.sin Real.cos Real.pi)
      (after_drag
        (Libm.mk Real.sqrt (fun y x => Complex.arg ⟨x, y⟩) Real.sin Real.cos Real.pi)) ∧
    ((after_drag (Libm.mk Real.sqrt (fun y x => Complex.arg ⟨x, y⟩) Real.sin Real.cos
      Real.pi)).grid.rows = 15 ∧
     (after_drag (Libm.mk Real.sqrt (fun y x => Complex.arg ⟨x, y⟩) Real.sin Real.cos
      Real.pi)).grid.cols = 26) :=
  ⟨after_drag_reachable _,
    (grid_dims_fixed_at_startup _ _ (after_drag_reachable _)).2⟩

/-! ## The three rules as sums over the visited candidates -/

theorem separation_fold (P : Params K) (boids : ℕ → Boid K) (b : ℕ) (l : List ℕ)
    (r0 : Vector2 K) :
    l.foldl (fun acc n => separation_callback P boids n acc) ⟨b, r0⟩
      = ⟨b, ⟨r0.x + ((l.filter (fun n =>
              !Vector2Equals (boids b).pos (boids n).pos &&
              decide (Vector2DistanceSqr (boids b).pos (boids n).pos
                < P.protected_range * P.protected_range))).map
              (fun n => (boids b).pos.x - (boids n).pos.x)).sum,
            r0.y + ((l.filter (fun n =>
              !Vector2Equals (boids b).pos (boids n).pos &&
              decide (Vector2DistanceSqr (boids b).pos (boids n).pos
                < P.protected_range * P.protected_range))).map
              (fun n => (boids b).pos.y - (boids n).pos.y)).sum⟩⟩ := by
  induction l generalizing r0 with
  | nil => simp
  | cons a l ih =>
    rw [List.foldl_cons]
    by_cases he : Vector2Equals (boids b).pos (boids a).pos = true
    · have : separation_callback P boids a ⟨b, r0⟩ = ⟨b, r0⟩ := by
        simp [separation_callback, he]
      rw [this, ih]
      simp [List.filter_cons, he]
    · by_cases hd : Vector2DistanceSqr (boids b).pos (boids a).pos
          < P.protected_range * P.protected_range
      · have : separation_callback P boids a ⟨b, r0⟩
            = ⟨b, Vector2Add r0 (Vector2Subtract (boids b).pos (boids a).pos)⟩ := by
          simp [separation_callback, he, hd]
        rw [this, ih]
        simp [List.filter_cons, he, hd, Vector2Add, Vector2Subtract, add_assoc]
      · have : separation_callback P boids a ⟨b, r0⟩ = ⟨b, r0⟩ := by
          simp [separation_callback, he, hd]
        rw [this, ih]
        simp [List.filter_cons, he, hd]

theorem cohesion_fold (boids : ℕ → Boid K) (l : List ℕ) (p0 : Vector2 K) (c0 : ℤ) :
    l.foldl (fun acc n => cohesion_callback boids n acc) ⟨p0, c0⟩
      = ⟨⟨p0.x + (l.map (fun n => (boids n).pos.x)).sum,
          p0.y + (l.map (fun n => (boids n).pos.y)).sum⟩, c0 + (l.length : ℤ)⟩ := by
  induction l generalizing p0 c0 with
  | nil => simp
  | cons a l ih =>
    rw [List.foldl_cons]
    have : cohesion_callback boids a ⟨p0, c0⟩ = ⟨Vector2Add p0 (boids a).pos, c0 + 1⟩ := rfl
    rw [this, ih]
    simp [Vector2Add, add_assoc, add_comm]
    omega

theorem alignment_fold (L : Libm K) (P : Params K) (boids : ℕ → Boid K) (b : ℕ)
    (l : List ℕ) (v0 : Vector2 K) (c0 : ℤ) :
    l.foldl (fun acc n => alignment_callback L P boids n acc) ⟨b, v0, c0⟩
      = ⟨b, ⟨v0.x + ((l.filter (fun n =>
              !Vector2Equals (boids b).pos (boids n).pos &&
              decide (Vector2Distance L (boids b).pos (boids n).pos
                < P.visual_range))).map (fun n => (boids n).vel.x)).sum,
            v0.y + ((l.filter (fun n =>
              !Vector2Equals (boids b).pos (boids n).pos &&
              decide (Vector2Distance L (boids b).pos (boids n).pos
                < P.visual_range))).map (fun n => (boids n).vel.y)).sum⟩,
          c0 + ((l.filter (fun n =>
              !Vector2Equals (boids b).pos (boids n).pos &&
              decide (Vector2Distance L (boids b).pos (boids n).pos
                < P.visual_range))).length : ℤ)⟩ := by
  induction l generalizing v0 c0 with
  | nil => simp
  | cons a l ih =>
    rw [List.foldl_cons]
    by_cases he : Vector2Equals (boids b).pos (boids a).pos = true
    · have : alignment_callback L P boids a ⟨b, v0, c0⟩ = ⟨b, v0, c0⟩ := by
        simp [alignment_callback, he]
      rw [this, ih]
      simp [List.filter_cons, he]
    · by_cases hd : Vector2Distance L (boids b).pos (boids a).pos < P.visual_range
      · have : alignment_callback L P boids a ⟨b, v0, c0⟩
            = ⟨b, Vector2Add v0 (boids a).vel, c0 + 1⟩ := by
          simp [alignment_callback, he, hd]
        rw [this, ih]
        simp [List.filter_cons, he, hd, Vector2Add, add_assoc, add_comm]
      · have : alignment_callback L P boids a ⟨b, v0, c0⟩ = ⟨b, v0, c0⟩ := by
          simp [alignment_callback, he, hd]
        rw [this, ih]
        simp [List.filter_cons, he, hd]

theorem near_grid_dims : near_grid.rows = 15 ∧ near_grid.cols = 26 := by
  unfold near_grid
  rw [rebuild_grid_rows, rebuild_grid_cols, init_grid_rows, init_grid_cols]
  simp only [initial_params]
  push_cast
  exact ⟨ceil_1080_75, ceil_1920_75⟩

theorem near_grid_cell (r c : ℤ) (hr : 0 ≤ r ∧ r < 15) (hc : 0 ≤ c ∧ c < 26) :
    (near_grid.cell r c).data = if r = 0 ∧ c = 0 then [0, 1] else [] := by
  have d1 : (init_grid 1920 1080 (initial_params : Params ℚ).visual_range
      (fun _ _ => BoidList.empty)).rows = 15 := by
    rw [init_grid_rows]; simp only [initial_params]; push_cast; exact ceil_1080_75
  have d2 : (init_grid 1920 1080 (initial_params : Params ℚ).visual_range
      (fun _ _ => BoidList.empty)).cols = 26 := by
    rw [init_grid_cols]; simp only [initial_params]; push_cast; exact ceil_1920_75
  obtain ⟨_, _, s3⟩ := rebuild_grid_spec (initial_params : Params ℚ)
    (init_grid 1920 1080 (initial_params : Params ℚ).visual_range
      (fun _ _ => BoidList.empty)) near_store 2 (by rw [d1]; decide) (by rw [d2]; decide)
  unfold near_grid
  rw [s3, d1, d2, if_pos ⟨hr, hc⟩]
  have e0 : grid_row (initial_params : Params ℚ) (init_grid 1920 1080
      (initial_params : Params ℚ).visual_range (fun _ _ => BoidList.empty))
      ((near_store : ℕ → Boid ℚ) 0).pos = 0 := by
    unfold grid_row; rw [d1]
    norm_num [truncToInt, near_store, two_boids, boid_at, initial_params]
  have e1 : grid_row (initial_params : Params ℚ) (init_grid 1920 1080
      (initial_params : Params ℚ).visual_range (fun _ _ => BoidList.empty))
      ((near_store : ℕ → Boid ℚ) 1).pos = 0 := by
    unfold grid_row; rw [d1]
    norm_num [truncToInt, near_store, two_boids, boid_at, initial_params]
  have f0 : grid_col (initial_params : Params ℚ) (init_grid 1920 1080
      (initial_params : Params ℚ).visual_range (fun _ _ => BoidList.empty))
      ((near_store : ℕ → Boid ℚ) 0).pos = 0 := by
    unfold grid_col; rw [d2]
    norm_num [truncToInt, near_store, two_boids, boid_at, initial_params]
  have f1 : grid_col (initial_params : Params ℚ) (init_grid 1920 1080
      (initial_params : Params ℚ).visual_range (fun _ _ => BoidList.empty))
      ((near_store : ℕ → Boid ℚ) 1).pos = 0 := by
    unfold grid_col; rw [d2]
    norm_num [truncToInt, near_store, two_boids, boid_at, initial_params]
  have e : List.range 2 = [0, 1] := rfl
  rw [e]
  simp only [List.filter_cons, List.filter_nil, e0, e1, f0, f1]
  by_cases h : r = 0 ∧ c = 0
  · obtain ⟨rfl, rfl⟩ := h
    simp
  · have h' : ¬ ((0 : ℤ) = r ∧ (0 : ℤ) = c) := fun ⟨a, b⟩ => h ⟨a.symm, b.symm⟩
    simp [h, h']

theorem near_visited : visited (initial_params : Params ℚ) near_grid near_store 0 = [1] := by
  have t0 : truncToInt (((near_store : ℕ → Boid ℚ) 0).pos.y
      / (initial_params : Params ℚ).visual_range) = 0 := by
    norm_num [truncToInt, near_store, two_boids, boid_at, initial_params]
  have t1 : truncToInt (((near_store : ℕ → Boid ℚ) 0).pos.x
      / (initial_params : Params ℚ).visual_range) = 0 := by
    norm_num [truncToInt, near_store, two_boids, boid_at, initial_params]
  rw [visited_eq_block]
  unfold block_candidates
  simp only [t0, t1, near_grid_dims.1, near_grid_dims.2]
  have c00 := near_grid_cell 0 0 (by decide) (by decide)
  have c01 := near_grid_cell 0 1 (by decide) (by decide)
  have c10 := near_grid_cell 1 0 (by decide) (by decide)
  have c11 := near_grid_cell 1 1 (by decide) (by decide)
  simp [List.filter_cons, c00, c01, c10, c11]

/-- C7: `separation(b)` is the sum of `b.pos - n.pos` over the candidates `n` that
`for_neighbors(b)` visits, that `Vector2Equals` does not find at the position of `b`, and
whose squared distance to `b` is less than `protected_range^2` (so zero when there is
none, and nothing from a candidate at squared distance `>= protected_range^2`).
Scenario: A at (0, 0) and B at (10, 0) with `protected_range = 20` give
`separation(A) = (-10, 0)`. -/
theorem separation_eq_sum (P : Params K) (g : Grid) (boids : ℕ → Boid K) (b : ℕ) :
    ((separation P g boids b).x
        = ((((visited P g boids b).filter (fun n =>
            !Vector2Equals (boids b).pos (boids n).pos &&
            decide (Vector2DistanceSqr (boids b).pos (boids n).pos
              < P.protected_range * P.protected_range))).map
            (fun n => (boids b).pos.x - (boids n).pos.x)).sum) ∧
      (separation P g boids b).y
        = ((((visited P g boids b).filter (fun n =>
            !Vector2Equals (boids b).pos (boids n).pos &&
            decide (Vector2DistanceSqr (boids b).pos (boids n).pos
              < P.protected_range * P.protected_range))).map
            (fun n => (boids b).pos.y - (boids n).pos.y)).sum)) ∧
    separation (initial_params : Params ℚ) near_grid near_store 0 = ⟨-10, 0⟩ := by
  have gen : ∀ {F : Type} [LinearOrderedField F] [FloorRing F] (P : Params F) (g : Grid)
      (boids : ℕ → Boid F) (b : ℕ),
      separation P g boids b
        = ⟨((((visited P g boids b).filter (fun n =>
            !Vector2Equals (boids b).pos (boids n).pos &&
            decide (Vector2DistanceSqr (boids b).pos (boids n).pos
              < P.protected_range * P.protected_range))).map
            (fun n => (boids b).pos.x - (boids n).pos.x)).sum),
          ((((visited P g boids b).filter (fun n =>
            !Vector2Equals (boids b).pos (boids n).pos &&
            decide (Vector2DistanceSqr (boids b).pos (boids n).pos
              < P.protected_range * P.protected_range))).map
            (fun n => (boids b).pos.y - (boids n).pos.y)).sum)⟩ := by
    intro F _ _ P g boids b
    unfold separation
    rw [for_neighbors_eq_visited, separation_fold]
    simp [Vector2Zero]
  refine ⟨⟨by rw [gen P g boids b], by rw [gen P g boids b]⟩, ?_⟩
  rw [gen, near_visited]
  norm_num [Vector2Equals, Vector2DistanceSqr, EPSILON, near_store, two_boids, boid_at,
    initial_params]

/-- C8: `cohesion(b)` is the zero vector when `for_neighbors(b)` visits no candidate, and
otherwise the mean of the positions of all the visited candidates, with no filter, minus
the position of `b`. -/
theorem cohesion_eq_mean (P : Params K) (g : Grid) (boids : ℕ → Boid K) (b : ℕ) :
    cohesion P g boids b
      = if visited P g boids b = [] then Vector2Zero
        else
          ⟨((visited P g boids b).map (fun n => (boids n).pos.x)).sum
              / ((visited P g boids b).length : K) - (boids b).pos.x,
           ((visited P g boids b).map (fun n => (boids n).pos.y)).sum
              / ((visited P g boids b).length : K) - (boids b).pos.y⟩ := by
  unfold cohesion
  rw [for_neighbors_eq_visited, cohesion_fold]
  by_cases h : visited P g boids b = []
  · simp [h]
  · have hl : ¬ ((0 : ℤ) + ((visited P g boids b).length : ℤ) = 0) := by
      have : 0 < (visited P g boids b).length := List.length_pos.mpr h
      omega
    simp only [hl, h, if_false]
    simp [Vector2Subtract, vector2divide, Vector2Zero]

/-- C9 (as amended): let Q be the candidates that `for_neighbors(b)` visits, that
`Vector2Equals` does not find at the position of `b`, and whose distance to `b` is less
than `visual_range`.  `alignment(b)` is the zero vector when Q is empty, and otherwise the
mean of the velocities of Q minus the velocity of `b`. -/
theorem alignment_eq_mean_of_apart (L : Libm K) (P : Params K) (g : Grid)
    (boids : ℕ → Boid K) (b : ℕ) :
    alignment L P g boids b
      = if (visited P g boids b).filter (fun n =>
            !Vector2Equals (boids b).pos (boids n).pos &&
            decide (Vector2Distance L (boids b).pos (boids n).pos < P.visual_range)) = []
        then Vector2Zero
        else
          ⟨(((visited P g boids b).filter (fun n =>
              !Vector2Equals (boids b).pos (boids n).pos &&
              decide (Vector2Distance L (boids b).pos (boids n).pos
                < P.visual_range))).map (fun n => (boids n).vel.x)).sum
            / (((visited P g boids b).filter (fun n =>
              !Vector2Equals (boids b).pos (boids n).pos &&
              decide (Vector2Distance L (boids b).pos (boids n).pos
                < P.visual_range))).length : K) - (boids b).vel.x,
           (((visited P g boids b).filter (fun n =>
              !Vector2Equals (boids b).pos (boids n).pos &&
              decide (Vector2Distance L (boids b).pos (boids n).pos
                < P.visual_range))).map (fun n => (boids n).vel.y)).sum
            / (((visited P g boids b).filter (fun n =>
              !Vector2Equals (boids b).pos (boids n).pos &&
              decide (Vector2Distance L (boids b).pos (boids n).pos
                < P.visual_range))).length : K) - (boids b).vel.y⟩ := by
  unfold alignment
  rw [for_neighbors_eq_visited, alignment_fold]
  generalize (visited P g boids b).filter (fun n =>
    !Vector2Equals (boids b).pos (boids n).pos &&
    decide (Vector2Distance L (boids b).pos (boids n).pos < P.visual_range)) = Q
  by_cases h : Q = []
  · simp [h]
  · have hl : ¬ ((0 : ℤ) + (Q.length : ℤ) = 0) := by
      have : 0 < Q.length := List.length_pos.mpr h
      omega
    simp only [hl, h, if_false]
    simp [Vector2Subtract, vector2divide, Vector2Zero]

theorem coincident_visited :
    visited (initial_params : Params ℝ) (coincident_grid ℝ) coincident_store 0 = [1] := by
  obtain ⟨s1, s2, s3⟩ := rebuild_grid_spec (initial_params : Params ℝ) empty_grid
    coincident_store 2 empty_grid_rows empty_grid_cols
  have t0 : truncToInt (((coincident_store : ℕ → Boid ℝ) 0).pos.y
      / (initial_params : Params ℝ).visual_range) = 1 := by
    norm_num [truncToInt, coincident_store, two_boids, boid_at, initial_params]
  have t1 : truncToInt (((coincident_store : ℕ → Boid ℝ) 0).pos.x
      / (initial_params : Params ℝ).visual_range) = 1 := by
    norm_num [truncToInt, coincident_store, two_boids, boid_at, initial_params]
  have e0 : ∀ i, grid_row (initial_params : Params ℝ) empty_grid
      ((coincident_store : ℕ → Boid ℝ) i).pos = 1 := by
    intro i
    by_cases h : i = 0 <;>
      norm_num [grid_row, truncToInt, coincident_store, two_boids, boid_at, initial_params,
        empty_grid, h]
  have f0 : ∀ i, grid_col (initial_params : Params ℝ) empty_grid
      ((coincident_store : ℕ → Boid ℝ) i).pos = 1 := by
    intro i
    by_cases h : i = 0 <;>
      norm_num [grid_col, truncToInt, coincident_store, two_boids, boid_at, initial_params,
        empty_grid, h]
  have cell : ∀ r c : ℤ, 0 ≤ r ∧ r < 15 → 0 ≤ c ∧ c < 26 →
      ((coincident_grid ℝ).cell r c).data = if r = 1 ∧ c = 1 then [0, 1] else [] := by
    intro r c hr hc
    unfold coincident_grid
    rw [s3, if_pos ⟨hr, hc⟩]
    have e : List.range 2 = [0, 1] := rfl
    simp only [e, List.filter_cons, List.filter_nil, e0, f0]
    by_cases h : r = 1 ∧ c = 1
    · obtain ⟨rfl, rfl⟩ := h
      simp
    · have h' : ¬ ((1 : ℤ) = r ∧ (1 : ℤ) = c) := fun ⟨a, b⟩ => h ⟨a.symm, b.symm⟩
      simp [h, h']
  have hrows : (coincident_grid ℝ).rows = 15 := s1
  have hcols : (coincident_grid ℝ).cols = 26 := s2
  rw [visited_eq_block]
  unfold block_candidates
  simp only [t0, t1, hrows, hcols]
  have c00 := cell 0 0 (by decide) (by decide)
  have c01 := cell 0 1 (by decide) (by decide)
  have c02 := cell 0 2 (by decide) (by decide)
  have c10 := cell 1 0 (by decide) (by decide)
  have c11 := cell 1 1 (by decide) (by decide)
  have c12 := cell 1 2 (by decide) (by decide)
  have c20 := cell 2 0 (by decide) (by decide)
  have c21 := cell 2 1 (by decide) (by decide)
  have c22 := cell 2 2 (by decide) (by decide)
  simp [List.filter_cons, c00, c01, c02, c10, c11, c12, c20, c21, c22]

/-- C9 (counterexample): boid 0 at (100, 100) moving at (1, 0) and boid 1 at the same
position moving at (0, 1), `visual_range = 75`.  Boid 1 is visited and is at distance
0 < 75, so the claim gives (0, 1)/1 - (1, 0) = (-1, 1); `alignment_callback` returns at
the `Vector2Equals` test and `alignment` gives (0, 0). -/
theorem alignment_skips_coincident :
    alignment (Libm.mk Real.sqrt (fun y x => Complex.arg ⟨x, y⟩) Real.sin Real.cos Real.pi)
      initial_params (coincident_grid ℝ) coincident_store 0 = ⟨0, 0⟩ ∧
    alignment_spec
      (Libm.mk Real.sqrt (fun y x => Complex.arg ⟨x, y⟩) Real.sin Real.cos Real.pi)
      initial_params (coincident_grid ℝ) coincident_store 0 = ⟨-1, 1⟩ := by
  constructor
  · unfold alignment
    rw [for_neighbors_eq_visited, alignment_fold, coincident_visited]
    norm_num [Vector2Equals, EPSILON, coincident_store, two_boids, boid_at, Vector2Zero]
  · unfold alignment_spec
    rw [coincident_visited]
    norm_num [Vector2Distance, coincident_store, two_boids, boid_at, initial_params]

/-! ## The lone boid -/

theorem smoothed_vel_eq_lerp (L : Libm K) (P : Params K) (g : Grid) (boids : ℕ → Boid K)
    (b : ℕ) :
    smoothed_vel L P g boids b
      = Vector2Lerp (boids b).vel (desired_vel L P g boids b) (1 / 10) := rfl

theorem lerp_angle_eq (a b t : K) :
    lerp_angle a b t = fmodf (a + lerp_angle_diff a b * t + 360) 360 := rfl

theorem forces_of_no_candidate (L : Libm K) (P : Params K) (g : Grid) (boids : ℕ → Boid K)
    (b : ℕ) (h : visited P g boids b = []) :
    separation P g boids b = Vector2Zero ∧ cohesion P g boids b = Vector2Zero ∧
    alignment L P g boids b = Vector2Zero := by
  refine ⟨?_, ?_, ?_⟩
  · unfold separation
    rw [for_neighbors_eq_visited, h]
    rfl
  · unfold cohesion
    rw [for_neighbors_eq_visited, h]
    rfl
  · unfold alignment
    rw [for_neighbors_eq_visited, h]
    rfl

theorem desired_vel_of_no_candidate (L : Libm K) (P : Params K) (g : Grid)
    (boids : ℕ → Boid K) (b : ℕ) (h : visited P g boids b = []) :
    desired_vel L P g boids b = (boids b).vel := by
  obtain ⟨h1, h2, h3⟩ := forces_of_no_candidate L P g boids b h
  unfold desired_vel
  rw [h1, h2, h3]
  ext <;> simp [Vector2Add, Vector2Scale, Vector2Zero]

theorem smoothed_vel_of_no_candidate (L : Libm K) (P : Params K) (g : Grid)
    (boids : ℕ → Boid K) (b : ℕ) (h : visited P g boids b = []) :
    smoothed_vel L P g boids b = (boids b).vel := by
  rw [smoothed_vel_eq_lerp, desired_vel_of_no_candidate L P g boids b h]
  ext <;> simp [Vector2Lerp]

theorem visited_empty_grid {K : Type} [LinearOrderedField K] [FloorRing K]
    (P : Params K) (boids : ℕ → Boid K) (b : ℕ) : visited P empty_grid boids b = [] := by
  unfold visited
  exact for_neighbors_empty_grid P boids b _ _

/-- C11 (as amended): for a boid `b` for which `for_neighbors` visits no candidate, with
any velocity `v` and any `dt`, `desired_vel` is `v`, the smoothing step leaves `v`, and
the new position is the old position plus `dt` times the clamped velocity: `v` itself
when `|v| <= 400`, and `v` rescaled to length 400 when `|v| > 400`. -/
theorem lone_boid_step (L : Libm K) (P : Params K) (g : Grid) (boids : ℕ → Boid K) (b : ℕ)
    (dt : K) (h : visited P g boids b = []) :
    desired_vel L P g boids b = (boids b).vel ∧
    smoothed_vel L P g boids b = (boids b).vel ∧
    (update_boid L P g boids b dt).pos
      = Vector2Add (boids b).pos
          (Vector2Scale
            (if Vector2Length L (boids b).vel > 400 then
              Vector2Scale (Vector2Normalize L (boids b).vel) 400
            else (boids b).vel) dt) := by
  refine ⟨desired_vel_of_no_candidate L P g boids b h,
    smoothed_vel_of_no_candidate L P g boids b h, ?_⟩
  rw [update_boid_pos, smoothed_vel_of_no_candidate L P g boids b h]
  rfl

/-- C11 (witness): a boid alone on the empty grid. -/
theorem lone_boid_step_witness :
    visited (initial_params : Params ℝ) empty_grid margin_store 0 = [] ∧
    smoothed_vel (Libm.mk Real.sqrt (fun y x => Complex.arg ⟨x, y⟩) Real.sin Real.cos Real.pi)
      initial_params empty_grid margin_store 0 = ((margin_store : ℕ → Boid ℝ) 0).vel :=
  ⟨visited_empty_grid _ _ _,
    (lone_boid_step (Libm.mk Real.sqrt (fun y x => Complex.arg ⟨x, y⟩) Real.sin Real.cos
      Real.pi) initial_params empty_grid margin_store 0 (1 / 100)
      (visited_empty_grid _ _ _)).2.1⟩

/-- C11 (counterexample): a boid alone at (500, 500) moving at `v = (500, 0)`, with
`dt = 1/10`.  No candidate is visited; `|v| = 500 > 400`, so the clamp turns the velocity
into (400, 0) and the new position is (540, 500), not `pos + v * dt = (550, 500)`. -/
theorem lone_fast_boid_is_clamped :
    visited (initial_params : Params ℝ) empty_grid fast_store 0 = [] ∧
    (update_boid (Libm.mk Real.sqrt (fun y x => Complex.arg ⟨x, y⟩) Real.sin Real.cos Real.pi)
      initial_params empty_grid fast_store 0 (1 / 10)).pos = ⟨540, 500⟩ ∧
    Vector2Add ((fast_store : ℕ → Boid ℝ) 0).pos
      (Vector2Scale ((fast_store : ℕ → Boid ℝ) 0).vel (1 / 10)) = ⟨550, 500⟩ := by
  have hs : Real.sqrt (500 * 500 + 0 * 0) = 500 := by
    rw [show (500 : ℝ) * 500 + 0 * 0 = 500 ^ 2 by norm_num]
    exact Real.sqrt_sq (by norm_num)
  refine ⟨visited_empty_grid _ _ _, ?_, ?_⟩
  · rw [update_boid_pos, smoothed_vel_empty_grid]
    simp only [clamp_speed, Vector2Length, Vector2Normalize, fast_store, boid_at, hs,
      Vector2Add, Vector2Scale]
    ext <;> norm_num
  · simp only [fast_store, boid_at, Vector2Add, Vector2Scale]
    ext <;> norm_num

/-! ## Heading interpolation -/

theorem truncToInt_spec_nonneg (x : K) (hx : 0 ≤ x) :
    ((truncToInt x : ℤ) : K) ≤ x ∧ x < (truncToInt x : K) + 1 := by
  rw [truncToInt_of_nonneg x hx]
  exact ⟨Int.floor_le x, Int.lt_floor_add_one x⟩

theorem truncToInt_spec_neg (x : K) (hx : x < 0) :
    ((truncToInt x : ℤ) : K) - 1 < x ∧ x ≤ (truncToInt x : K) := by
  have e : truncToInt x = ⌈x⌉ := by unfold truncToInt; rw [if_neg (not_le.mpr hx)]
  rw [e]
  constructor
  · have := Int.ceil_lt_add_one x
    linarith
  · exact Int.le_ceil x

theorem fmodf_360_nonneg (x : K) (hx : 0 ≤ x) : 0 ≤ fmodf x 360 ∧ fmodf x 360 < 360 := by
  obtain ⟨h1, h2⟩ := truncToInt_spec_nonneg (x / 360) (div_nonneg hx (by norm_num))
  rw [le_div_iff₀ (by norm_num : (0 : K) < 360)] at h1
  rw [div_lt_iff₀ (by norm_num : (0 : K) < 360)] at h2
  unfold fmodf
  constructor <;> linarith

theorem fmodf_360_small_neg (x : K) (h0 : x < 0) (h1 : -360 < x) : fmodf x 360 = x := by
  have hx : x / 360 < 0 := div_neg_of_neg_of_pos h0 (by norm_num)
  have e : truncToInt (x / 360) = 0 := by
    unfold truncToInt
    rw [if_neg (not_le.mpr hx), Int.ceil_eq_iff]
    constructor
    · rw [lt_div_iff₀ (by norm_num : (0 : K) < 360)]; push_cast; linarith
    · push_cast; exact hx.le
  unfold fmodf
  rw [e]; simp

theorem lerp_angle_diff_spec (a b : K) (ha : 0 ≤ a ∧ a < 360) (hb : -180 ≤ b ∧ b < 360) :
    (-180 < lerp_angle_diff a b ∧ lerp_angle_diff a b ≤ 180) ∧
    ∃ k : ℤ, lerp_angle_diff a b - (b - a) = 360 * (k : K) := by
  have hk : ∃ k : ℤ, fmodf (b - a + 360) 360 - (b - a) = 360 * (k : K) :=
    ⟨1 - truncToInt ((b - a + 360) / 360), by unfold fmodf; push_cast; ring⟩
  have hrange : -180 < fmodf (b - a + 360) 360 ∧ fmodf (b - a + 360) 360 < 360 := by
    by_cases hx : 0 ≤ b - a + 360
    · obtain ⟨h1, h2⟩ := fmodf_360_nonneg _ hx
      exact ⟨by linarith, h2⟩
    · have hx' : b - a + 360 < 0 := not_le.mp hx
      rw [fmodf_360_small_neg _ hx' (by linarith [ha.2, hb.1])]
      constructor <;> linarith [ha.2, hb.1]
  obtain ⟨k, hk⟩ := hk
  unfold lerp_angle_diff
  simp only
  split_ifs with h
  · refine ⟨⟨by linarith, by linarith [hrange.2]⟩, k - 1, ?_⟩
    push_cast; linarith
  · exact ⟨⟨hrange.1, not_lt.mp h⟩, k, hk⟩

theorem congr_360_unique (d d' c : K) (hd : -180 < d ∧ d ≤ 180) (hd' : -180 < d' ∧ d' ≤ 180)
    (k k' : ℤ) (hk : d - c = 360 * (k : K)) (hk' : d' - c = 360 * (k' : K)) : d' = d := by
  have e : d' - d = 360 * ((k' - k : ℤ) : K) := by push_cast; linarith
  have h1 : ((k' - k : ℤ) : K) < 1 := by linarith [hd.1, hd'.2]
  have h2 : (-1 : K) < ((k' - k : ℤ) : K) := by linarith [hd.2, hd'.1]
  have h3 : k' - k < 1 := by exact_mod_cast h1
  have h4 : -1 < k' - k := by exact_mod_cast h2
  have h5 : k' - k = 0 := by omega
  rw [h5] at e
  simp at e
  linarith

/-- C12: for `a` in [0, 360) and `b` in [-180, 360) (the range of `atan2` in degrees, or
[0, 360)) and every `t`, the `diff` of `lerp_angle` is the only `d` in (-180, 180]
congruent to `b - a` modulo 360, and `lerp_angle(a, b, t)` is congruent to `a + t * d`
modulo 360.  Scenario: `lerp_angle(350, 10, 0.5) = 0`, with `diff = 20`. -/
theorem lerp_angle_shortest_arc (a b t : K) (ha : 0 ≤ a ∧ a < 360)
    (hb : -180 ≤ b ∧ b < 360) :
    ((-180 < lerp_angle_diff a b ∧ lerp_angle_diff a b ≤ 180) ∧
      ∃ k : ℤ, lerp_angle_diff a b - (b - a) = 360 * (k : K)) ∧
    (∀ d : K, -180 < d ∧ d ≤ 180 → (∃ k : ℤ, d - (b - a) = 360 * (k : K)) →
      d = lerp_angle_diff a b) ∧
    (∃ k : ℤ, lerp_angle a b t - (a + t * lerp_angle_diff a b) = 360 * (k : K)) ∧
    (lerp_angle_diff (350 : ℚ) 10 = 20 ∧ lerp_angle (350 : ℚ) 10 (1 / 2) = 0) := by
  obtain ⟨hr, k, hk⟩ := lerp_angle_diff_spec a b ha hb
  refine ⟨⟨hr, k, hk⟩, ?_, ?_, ?_, ?_⟩
  · rintro d hd ⟨k', hk'⟩
    exact congr_360_unique _ _ _ hr hd k k' hk hk'
  · refine ⟨1 - truncToInt ((a + lerp_angle_diff a b * t + 360) / 360), ?_⟩
    rw [lerp_angle_eq]
    unfold fmodf
    push_cast; ring
  · norm_num [lerp_angle_diff, fmodf, truncToInt]
  · norm_num [lerp_angle, fmodf, truncToInt]

/-- C12 (witness): `a = 350`, `b = 10`, `t = 1/2`. -/
theorem lerp_angle_shortest_arc_witness :
    ((0 : ℚ) ≤ 350 ∧ (350 : ℚ) < 360) ∧ ((-180 : ℚ) ≤ 10 ∧ (10 : ℚ) < 360) ∧
    ∃ k : ℤ, lerp_angle (350 : ℚ) 10 (1 / 2) - (350 + 1 / 2 * lerp_angle_diff (350 : ℚ) 10)
      = 360 * (k : ℚ) :=
  have ha : (0 : ℚ) ≤ 350 ∧ (350 : ℚ) < 360 := by norm_num
  have hb : (-180 : ℚ) ≤ 10 ∧ (10 : ℚ) < 360 := by norm_num
  ⟨ha, hb, (lerp_angle_shortest_arc (350 : ℚ) 10 (1 / 2) ha hb).2.2.1⟩

/-- For `t` between 0 and 2 the argument of the last `fmodf` of `lerp_angle` is not
negative, and the result lies in [0, 360). -/
theorem lerp_angle_in_range (a b t : K) (ha : 0 ≤ a ∧ a < 360) (hb : -180 ≤ b ∧ b < 360)
    (ht : 0 ≤ t ∧ t ≤ 2) : 0 ≤ lerp_angle a b t ∧ lerp_angle a b t < 360 := by
  obtain ⟨⟨d1, d2⟩, _⟩ := lerp_angle_diff_spec a b ha hb
  rw [lerp_angle_eq]
  apply fmodf_360_nonneg
  by_cases hd : 0 ≤ lerp_angle_diff a b
  · have := mul_nonneg hd ht.1
    linarith [ha.1]
  · have hd' : lerp_angle_diff a b < 0 := not_le.mp hd
    have : lerp_angle_diff a b * t ≥ lerp_angle_diff a b * 2 :=
      mul_le_mul_of_nonpos_left ht.2 hd'.le
    linarith [ha.1]

theorem update_boid_angle (L : Libm K) (P : Params K) (g : Grid) (boids : ℕ → Boid K)
    (b : ℕ) (dt : K) :
    (update_boid L P g boids b dt).angle_deg
      = lerp_angle (boids b).angle_deg
          (L.atan2f (update_boid L P g boids b dt).vel.y (update_boid L P g boids b dt).vel.x
            * (180 / L.PI)) (3 * dt) := rfl

/-- C13 (the code at the failing input): a boid alone at (500, 500) with heading 0,
moving at (0, -1), and `dt = 2`.  The velocity stays (0, -1), the target heading is
`atan2(-1, 0) = -90` degrees, `diff = -90`, and `lerp_angle(0, -90, 6)` is
`fmodf(0 - 540 + 360, 360) = fmodf(-180, 360) = -180`, outside [0, 360). -/
theorem heading_leaves_range :
    ((turning_store : ℕ → Boid ℝ) 0).angle_deg = 0 ∧
    (update_boid (Libm.mk Real.sqrt (fun y x => Complex.arg ⟨x, y⟩) Real.sin Real.cos Real.pi)
      initial_params empty_grid turning_store 0 2).vel = ⟨0, -1⟩ ∧
    (update_boid (Libm.mk Real.sqrt (fun y x => Complex.arg ⟨x, y⟩) Real.sin Real.cos Real.pi)
      initial_params empty_grid turning_store 0 2).angle_deg = -180 := by
  have hs : Real.sqrt (0 * 0 + -1 * -1) = 1 := by norm_num
  have hv : (update_boid
      (Libm.mk Real.sqrt (fun y x => Complex.arg ⟨x, y⟩) Real.sin Real.cos Real.pi)
      initial_params empty_grid turning_store 0 2).vel = ⟨0, -1⟩ := by
    rw [update_boid_vel, update_boid_pos, smoothed_vel_empty_grid]
    simp only [clamp_speed, Vector2Length, turning_store, boid_at, hs, gt_iff_lt,
      Vector2Add, Vector2Scale, bound_vel_x, bound_vel_y, SCREEN_WIDTH, SCREEN_HEIGHT]
    ext <;> norm_num
  have harg : Complex.arg ⟨0, -1⟩ = -(Real.pi / 2) := by
    have e : (⟨0, -1⟩ : ℂ) = -Complex.I := by
      apply Complex.ext <;> simp
    rw [e, Complex.arg_neg_I]
  refine ⟨rfl, hv, ?_⟩
  rw [update_boid_angle, hv]
  simp only [harg]
  have ht : -(Real.pi / 2) * (180 / Real.pi) = -90 := by
    field_simp
    ring
  rw [ht]
  norm_num [lerp_angle, fmodf, truncToInt, turning_store, boid_at, Int.ceil_neg]

/-! ## Rebuild twice, self-exclusion, boundary steering -/

/-- C14: on a grid with `rows, cols >= 1`, rebuilding twice in a row gives in every cell of
the grid the same boids (the same list, so the same set and the same count) as rebuilding
once, and the rebuild of any other grid content of the same dimensions gives the same
cells: the result depends on the store and the parameters only. -/
theorem rebuild_idempotent (P : Params K) (g g2 : Grid) (boids : ℕ → Boid K) (n : ℕ)
    (r c : ℤ) (hr : 1 ≤ g.rows) (hc : 1 ≤ g.cols) (h2r : g2.rows = g.rows)
    (h2c : g2.cols = g.cols) (hrr : 0 ≤ r ∧ r < g.rows) (hcc : 0 ≤ c ∧ c < g.cols) :
    (((rebuild_grid P (rebuild_grid P g boids n) boids n).cell r c).data
        = ((rebuild_grid P g boids n).cell r c).data ∧
      ((rebuild_grid P (rebuild_grid P g boids n) boids n).cell r c).count
        = ((rebuild_grid P g boids n).cell r c).count) ∧
    (((rebuild_grid P g2 boids n).cell r c).data
        = ((rebuild_grid P g boids n).cell r c).data ∧
      ((rebuild_grid P g2 boids n).cell r c).count
        = ((rebuild_grid P g boids n).cell r c).count) := by
  obtain ⟨s1, s2, s3⟩ := rebuild_grid_spec P g boids n hr hc
  have key : ∀ g' : Grid, g'.rows = g.rows → g'.cols = g.cols →
      ((rebuild_grid P g' boids n).cell r c).data
        = ((rebuild_grid P g boids n).cell r c).data := by
    intro g' e1 e2
    obtain ⟨_, _, t3⟩ := rebuild_grid_spec P g' boids n (by rw [e1]; exact hr)
      (by rw [e2]; exact hc)
    rw [t3, s3, e1, e2, if_pos ⟨hrr, hcc⟩, if_pos ⟨hrr, hcc⟩]
    have er : ∀ pos, grid_row P g' pos = grid_row P g pos :=
      fun pos => grid_row_congr P g g' pos e1
    have ec : ∀ pos, grid_col P g' pos = grid_col P g pos :=
      fun pos => grid_col_congr P g g' pos e2
    simp only [er, ec]
  have k1 := key (rebuild_grid P g boids n) s1 s2
  have k2 := key g2 h2r h2c
  refine ⟨⟨k1, ?_⟩, ⟨k2, ?_⟩⟩
  · unfold BoidList.count; rw [k1]
  · unfold BoidList.count; rw [k2]

/-- C14 (witness): the two boids of `near_store`, cell (0, 0), starting from the empty
15 x 26 grid and from the grid `near_grid` that already holds them. -/
theorem rebuild_idempotent_witness :
    ((1 ≤ empty_grid.rows ∧ 1 ≤ empty_grid.cols) ∧
      (near_grid.rows = empty_grid.rows ∧ near_grid.cols = empty_grid.cols)) ∧
    ((rebuild_grid (initial_params : Params ℚ)
        (rebuild_grid (initial_params : Params ℚ) empty_grid near_store 2)
        near_store 2).cell 0 0).data
      = ((rebuild_grid (initial_params : Params ℚ) empty_grid near_store 2).cell 0 0).data :=
  ⟨⟨⟨empty_grid_rows, empty_grid_cols⟩, near_grid_dims⟩,
    (rebuild_idempotent (initial_params : Params ℚ) empty_grid near_grid near_store 2 0 0
      empty_grid_rows empty_grid_cols near_grid_dims.1 near_grid_dims.2
      (by decide) (by decide)).1.1⟩

/-- C15: `for_neighbors(b, ...)` never hands `b` itself to its callback, for any grid
content; and for a store of the single boid 0, after the rebuild (from any grid, for any
position of the boid) it hands nothing to its callback. -/
theorem self_excluded (P : Params K) (g : Grid) (boids : ℕ → Boid K) (b : ℕ) :
    (visited P g boids b).count b = 0 ∧
    visited P (rebuild_grid P g boids 1) boids 0 = [] := by
  constructor
  · rw [List.count_eq_zero, mem_visited_iff]
    exact fun h => h.1 rfl
  · rw [List.eq_nil_iff_forall_not_mem]
    intro n hn
    rw [mem_visited_iff] at hn
    obtain ⟨hne, i, j, _, _, hi, hj, hmem⟩ := hn
    rw [rebuild_grid_rows] at hi
    rw [rebuild_grid_cols] at hj
    obtain ⟨_, _, s3⟩ := rebuild_grid_spec P g boids 1 (by omega) (by omega)
    rw [s3, if_pos ⟨hi, hj⟩, List.mem_filter, List.mem_range] at hmem
    omega

/-- C17: `bound_position` keeps the position; on each axis it adds
`(100 - pos)/100 * 80` to the velocity when `pos < 100`, subtracts
`(pos - 1820)/100 * 80` (980 for y) when `pos` is beyond that bound, and keeps the
velocity otherwise; the change is strictly toward the inside of the screen; and the
velocity is unchanged when `100 <= pos.x <= 1820` and `100 <= pos.y <= 980`. -/
theorem bound_position_steers_inward (b : Boid K) :
    (bound_position b).pos = b.pos ∧
    ((bound_position b).vel.x
        = (if b.pos.x < 100 then b.vel.x + (100 - b.pos.x) / 100 * 80
          else if b.pos.x > 1820 then b.vel.x - (b.pos.x - 1820) / 100 * 80
          else b.vel.x) ∧
      (bound_position b).vel.y
        = (if b.pos.y < 100 then b.vel.y + (100 - b.pos.y) / 100 * 80
          else if b.pos.y > 980 then b.vel.y - (b.pos.y - 980) / 100 * 80
          else b.vel.y)) ∧
    ((if b.pos.x < 100 then b.vel.x < (bound_position b).vel.x
        else if b.pos.x > 1820 then (bound_position b).vel.x < b.vel.x
        else (bound_position b).vel.x = b.vel.x) ∧
      (if b.pos.y < 100 then b.vel.y < (bound_position b).vel.y
        else if b.pos.y > 980 then (bound_position b).vel.y < b.vel.y
        else (bound_position b).vel.y = b.vel.y)) ∧
    (if (100 ≤ b.pos.x ∧ b.pos.x ≤ 1820) ∧ (100 ≤ b.pos.y ∧ b.pos.y ≤ 980) then
        (bound_position b).vel = b.vel
      else True) := by
  have ex : (bound_position b).vel.x
      = (if b.pos.x < 100 then b.vel.x + (100 - b.pos.x) / 100 * 80
        else if b.pos.x > 1820 then b.vel.x - (b.pos.x - 1820) / 100 * 80
        else b.vel.x) := by
    show bound_vel_x b.pos b.vel = _
    unfold bound_vel_x
    simp only [SCREEN_WIDTH]
    norm_num
  have ey : (bound_position b).vel.y
      = (if b.pos.y < 100 then b.vel.y + (100 - b.pos.y) / 100 * 80
        else if b.pos.y > 980 then b.vel.y - (b.pos.y - 980) / 100 * 80
        else b.vel.y) := by
    show bound_vel_y b.pos b.vel = _
    unfold bound_vel_y
    simp only [SCREEN_HEIGHT]
    norm_num
  refine ⟨rfl, ⟨ex, ey⟩, ⟨?_, ?_⟩, ?_⟩
  · rw [ex]
    split_ifs with h1 h2
    · have : 0 < (100 - b.pos.x) / 100 * 80 := by
        apply mul_pos (div_pos (by linarith) (by norm_num)) (by norm_num)
      linarith
    · have : 0 < (b.pos.x - 1820) / 100 * 80 := by
        apply mul_pos (div_pos (by linarith) (by norm_num)) (by norm_num)
      linarith
    · rfl
  · rw [ey]
    split_ifs with h1 h2
    · have : 0 < (100 - b.pos.y) / 100 * 80 := by
        apply mul_pos (div_pos (by linarith) (by norm_num)) (by norm_num)
      linarith
    · have : 0 < (b.pos.y - 980) / 100 * 80 := by
        apply mul_pos (div_pos (by linarith) (by norm_num)) (by norm_num)
      linarith
    · rfl
  · split_ifs with h
    · obtain ⟨⟨x1, x2⟩, ⟨y1, y2⟩⟩ := h
      ext
      · rw [ex, if_neg (not_lt.mpr x1), if_neg (not_lt.mpr x2)]
      · rw [ey, if_neg (not_lt.mpr y1), if_neg (not_lt.mpr y2)]

/-! ## The clamp and the step in exact arithmetic -/

theorem clamp_speed_of_gt (L : Libm K) (hL : IsSqrt L.sqrtf) (v : Vector2 K)
    (h : Vector2Length L v > 400) :
    clamp_speed L v = Vector2Scale v (400 / Vector2Length L v) ∧
    Vector2Length L (clamp_speed L v) = 400 := by
  have hpos : 0 < L.sqrtf (v.x * v.x + v.y * v.y) := by
    unfold Vector2Length at h; linarith
  have hne : L.sqrtf (v.x * v.x + v.y * v.y) ≠ 0 := ne_of_gt hpos
  obtain ⟨_, h1⟩ := hL (v.x * v.x + v.y * v.y)
    (add_nonneg (mul_self_nonneg _) (mul_self_nonneg _))
  have e : clamp_speed L v = Vector2Scale v (400 / Vector2Length L v) := by
    unfold clamp_speed
    simp only [h, if_true]
    unfold Vector2Scale Vector2Normalize Vector2Length
    simp only [gt_iff_lt, hpos, if_true]
    ext <;> simp only <;> field_simp
  refine ⟨e, ?_⟩
  rw [e]
  unfold Vector2Length Vector2Scale
  simp only
  have e2 : v.x * (400 / L.sqrtf (v.x * v.x + v.y * v.y)) *
        (v.x * (400 / L.sqrtf (v.x * v.x + v.y * v.y))) +
      v.y * (400 / L.sqrtf (v.x * v.x + v.y * v.y)) *
        (v.y * (400 / L.sqrtf (v.x * v.x + v.y * v.y))) = 400 * 400 := by
    field_simp
    nlinarith [h1]
  rw [e2, sqrt_unique L.sqrtf hL 400 (by norm_num)]

theorem distance_of_step (L : Libm K) (hL : IsSqrt L.sqrtf) (p c : Vector2 K) (dt : K)
    (hdt : 0 ≤ dt) :
    Vector2Distance L (Vector2Add p (Vector2Scale c dt)) p = Vector2Length L c * dt := by
  obtain ⟨h0, h1⟩ := hL (c.x * c.x + c.y * c.y)
    (add_nonneg (mul_self_nonneg _) (mul_self_nonneg _))
  unfold Vector2Distance Vector2Length Vector2Add Vector2Scale
  simp only
  have e : (p.x + c.x * dt - p.x) * (p.x + c.x * dt - p.x) +
      (p.y + c.y * dt - p.y) * (p.y + c.y * dt - p.y)
        = (L.sqrtf (c.x * c.x + c.y * c.y) * dt) * (L.sqrtf (c.x * c.x + c.y * c.y) * dt) := by
    have : (L.sqrtf (c.x * c.x + c.y * c.y) * dt) * (L.sqrtf (c.x * c.x + c.y * c.y) * dt)
        = (L.sqrtf (c.x * c.x + c.y * c.y) * L.sqrtf (c.x * c.x + c.y * c.y)) * (dt * dt) := by
      ring
    rw [this, h1]; ring
  rw [e, sqrt_unique L.sqrtf hL _ (mul_nonneg h0 hdt)]

/-! ## Separation between two boids -/

theorem flatMap_ite_eq {β : Type} (l : List ℤ) (hl : l.Nodup) (r : ℤ) (m : ℤ → List β) :
    l.flatMap (fun i => if r = i then m i else []) = if r ∈ l then m r else [] := by
  induction l with
  | nil => simp
  | cons a l ih =>
    rw [List.nodup_cons] at hl
    rw [List.flatMap_cons, ih hl.2]
    by_cases h : r = a
    · subst h
      simp [hl.1]
    · have h' : ¬ a = r := fun e => h e.symm
      simp [h, h']

theorem block_axis_nodup (r n : ℤ) :
    ([r - 1, r, r + 1].filter (fun i => !decide (i < 0 ∨ i ≥ n))).Nodup := by
  apply List.Nodup.filter
  simp
  omega

theorem mem_block_axis (r n x : ℤ) (hx : 0 ≤ x ∧ x < n) :
    x ∈ [r - 1, r, r + 1].filter (fun i => !decide (i < 0 ∨ i ≥ n))
      ↔ (x = r - 1 ∨ x = r ∨ x = r + 1) := by
  simp only [List.mem_filter, List.mem_cons, List.mem_singleton, List.not_mem_nil, or_false,
    Bool.not_eq_true', decide_eq_false_iff_not, not_or, not_lt, ge_iff_le, not_le]
  constructor
  · exact fun h => h.1
  · exact fun h => ⟨h, hx.1, hx.2⟩

theorem pair_cell_filter (P : Params K) (g : Grid) (boids : ℕ → Boid K) (b o : ℕ)
    (hbo : (b = 0 ∧ o = 1) ∨ (b = 1 ∧ o = 0)) (i j : ℤ) :
    ((List.range 2).filter (fun n =>
        decide (grid_row P g (boids n).pos = i ∧ grid_col P g (boids n).pos = j))).filter
        (fun n => decide (n ≠ b))
      = if grid_row P g (boids o).pos = i then
          (if grid_col P g (boids o).pos = j then [o] else [])
        else [] := by
  have e : List.range 2 = [0, 1] := rfl
  rw [e]
  rcases hbo with ⟨rfl, rfl⟩ | ⟨rfl, rfl⟩
  · by_cases h1 : grid_row P g (boids 1).pos = i <;>
    by_cases h2 : grid_col P g (boids 1).pos = j <;>
    by_cases h3 : grid_row P g (boids 0).pos = i <;>
    by_cases h4 : grid_col P g (boids 0).pos = j <;>
    simp [List.filter_cons, h1, h2, h3, h4]
  · by_cases h1 : grid_row P g (boids 1).pos = i <;>
    by_cases h2 : grid_col P g (boids 1).pos = j <;>
    by_cases h3 : grid_row P g (boids 0).pos = i <;>
    by_cases h4 : grid_col P g (boids 0).pos = j <;>
    simp [List.filter_cons, h1, h2, h3, h4]

/-- What `for_neighbors` visits in a rebuilt store of two boids: the other boid, once,
when its cell lies in the block of the query, and nothing otherwise. -/
theorem visited_pair (P : Params K) (g : Grid) (boids : ℕ → Boid K) (hr : 1 ≤ g.rows)
    (hc : 1 ≤ g.cols) (b o : ℕ) (hbo : (b = 0 ∧ o = 1) ∨ (b = 1 ∧ o = 0)) :
    visited P (rebuild_grid P g boids 2) boids b
      = if (grid_row P g (boids o).pos = truncToInt ((boids b).pos.y / P.visual_range) - 1 ∨
            grid_row P g (boids o).pos = truncToInt ((boids b).pos.y / P.visual_range) ∨
            grid_row P g (boids o).pos = truncToInt ((boids b).pos.y / P.visual_range) + 1) ∧
          (grid_col P g (boids o).pos = truncToInt ((boids b).pos.x / P.visual_range) - 1 ∨
            grid_col P g (boids o).pos = truncToInt ((boids b).pos.x / P.visual_range) ∨
            grid_col P g (boids o).pos = truncToInt ((boids b).pos.x / P.visual_range) + 1)
        then [o] else [] := by
  obtain ⟨s1, s2, s3⟩ := rebuild_grid_spec P g boids 2 hr hc
  have rr := grid_row_range P g (boids o).pos hr
  have rc := grid_col_range P g (boids o).pos hc
  rw [visited_eq_block]
  unfold block_candidates
  simp only [s1, s2]
  have inner : ∀ i ∈ [truncToInt ((boids b).pos.y / P.visual_range) - 1,
        truncToInt ((boids b).pos.y / P.visual_range),
        truncToInt ((boids b).pos.y / P.visual_range) + 1].filter
          (fun i => !decide (i < 0 ∨ i ≥ g.rows)),
      ([truncToInt ((boids b).pos.x / P.visual_range) - 1,
        truncToInt ((boids b).pos.x / P.visual_range),
        truncToInt ((boids b).pos.x / P.visual_range) + 1].filter
          (fun j => !decide (j < 0 ∨ j ≥ g.cols))).flatMap (fun j =>
        ((rebuild_grid P g boids 2).cell i j).data.filter (fun n => decide (n ≠ b)))
      = if grid_row P g (boids o).pos = i then
          (if grid_col P g (boids o).pos ∈
              [truncToInt ((boids b).pos.x / P.visual_range) - 1,
                truncToInt ((boids b).pos.x / P.visual_range),
                truncToInt ((boids b).pos.x / P.visual_range) + 1].filter
                (fun j => !decide (j < 0 ∨ j ≥ g.cols)) then [o] else [])
        else [] := by
    intro i hi
    have hi' : 0 ≤ i ∧ i < g.rows := by
      simp only [List.mem_filter, Bool.not_eq_true', decide_eq_false_iff_not, not_or, not_lt,
        ge_iff_le, not_le] at hi
      exact hi.2
    have step : ∀ j ∈ [truncToInt ((boids b).pos.x / P.visual_range) - 1,
        truncToInt ((boids b).pos.x / P.visual_range),
        truncToInt ((boids b).pos.x / P.visual_range) + 1].filter
          (fun j => !decide (j < 0 ∨ j ≥ g.cols)),
        ((rebuild_grid P g boids 2).cell i j).data.filter (fun n => decide (n ≠ b))
          = if grid_col P g (boids o).pos = j then
              (if grid_row P g (boids o).pos = i then [o] else [])
            else [] := by
      intro j hj
      have hj' : 0 ≤ j ∧ j < g.cols := by
        simp only [List.mem_filter, Bool.not_eq_true', decide_eq_false_iff_not, not_or,
          not_lt, ge_iff_le, not_le] at hj
        exact hj.2
      rw [s3, if_pos ⟨hi', hj'⟩, pair_cell_filter P g boids b o hbo]
      split_ifs <;> rfl
    rw [List.flatMap_congr step, flatMap_ite_eq _ (block_axis_nodup _ _)]
    split_ifs <;> rfl
  rw [List.flatMap_congr inner, flatMap_ite_eq _ (block_axis_nodup _ _)]
  simp only [mem_block_axis _ _ _ rr, mem_block_axis _ _ _ rc]
  rw [ite_and]

theorem grid_row_of_inside (P : Params K) (g : Grid) (pos : Vector2 K)
    (h : 0 ≤ truncToInt (pos.y / P.visual_range) ∧ truncToInt (pos.y / P.visual_range) < g.rows) :
    grid_row P g pos = truncToInt (pos.y / P.visual_range) := by
  unfold grid_row
  simp only
  rw [if_neg (not_lt.mpr h.1), if_neg (not_le.mpr h.2)]

theorem grid_col_of_inside (P : Params K) (g : Grid) (pos : Vector2 K)
    (h : 0 ≤ truncToInt (pos.x / P.visual_range) ∧ truncToInt (pos.x / P.visual_range) < g.cols) :
    grid_col P g pos = truncToInt (pos.x / P.visual_range) := by
  unfold grid_col
  simp only
  rw [if_neg (not_lt.mpr h.1), if_neg (not_le.mpr h.2)]

theorem Vector2Equals_comm (p q : Vector2 K) : Vector2Equals p q = Vector2Equals q p := by
  unfold Vector2Equals
  rw [abs_sub_comm p.x q.x, abs_sub_comm p.y q.y, max_comm |p.x| |q.x|, max_comm |p.y| |q.y|]

theorem Vector2DistanceSqr_comm (p q : Vector2 K) :
    Vector2DistanceSqr p q = Vector2DistanceSqr q p := by
  unfold Vector2DistanceSqr; ring

theorem separation_single (P : Params K) (boids : ℕ → Boid K) (b o : ℕ) :
    ([o].foldl (fun acc n => separation_callback P boids n acc)
        (⟨b, Vector2Zero⟩ : SeparationData K)).repulsion
      = if Vector2Equals (boids b).pos (boids o).pos = false ∧
          Vector2DistanceSqr (boids b).pos (boids o).pos
            < P.protected_range * P.protected_range then
          Vector2Subtract (boids b).pos (boids o).pos
        else Vector2Zero := by
  rw [separation_fold]
  by_cases he : Vector2Equals (boids b).pos (boids o).pos = true
  · simp [he, Vector2Zero]
  · by_cases hd : Vector2DistanceSqr (boids b).pos (boids o).pos
        < P.protected_range * P.protected_range
    · simp [he, hd, Vector2Zero, Vector2Subtract]
    · simp [he, hd, Vector2Zero]

/-- C20: for a store of two boids rebuilt into a grid with `rows, cols >= 1`, both with
their unclamped cell inside the grid, `separation` of boid 0 is `pos0 - pos1` and
`separation` of boid 1 is `pos1 - pos0` when boid 1 is in the block of boid 0,
`Vector2Equals` does not find them at the same position and their squared distance is
less than `protected_range^2`, and both are zero otherwise; so
`separation(0) = -separation(1)`. -/
theorem separation_antisymmetric (P : Params K) (g : Grid) (boids : ℕ → Boid K)
    (hr : 1 ≤ g.rows) (hc : 1 ≤ g.cols)
    (h0 : (0 ≤ truncToInt ((boids 0).pos.y / P.visual_range) ∧
        truncToInt ((boids 0).pos.y / P.visual_range) < g.rows) ∧
      (0 ≤ truncToInt ((boids 0).pos.x / P.visual_range) ∧
        truncToInt ((boids 0).pos.x / P.visual_range) < g.cols))
    (h1 : (0 ≤ truncToInt ((boids 1).pos.y / P.visual_range) ∧
        truncToInt ((boids 1).pos.y / P.visual_range) < g.rows) ∧
      (0 ≤ truncToInt ((boids 1).pos.x / P.visual_range) ∧
        truncToInt ((boids 1).pos.x / P.visual_range) < g.cols)) :
    (separation P (rebuild_grid P g boids 2) boids 0
      = if 1 ∈ visited P (rebuild_grid P g boids 2) boids 0 ∧
          Vector2Equals (boids 0).pos (boids 1).pos = false ∧
          Vector2DistanceSqr (boids 0).pos (boids 1).pos
            < P.protected_range * P.protected_range then
          Vector2Subtract (boids 0).pos (boids 1).pos
        else Vector2Zero) ∧
    (separation P (rebuild_grid P g boids 2) boids 1
      = if 1 ∈ visited P (rebuild_grid P g boids 2) boids 0 ∧
          Vector2Equals (boids 0).pos (boids 1).pos = false ∧
          Vector2DistanceSqr (boids 0).pos (boids 1).pos
            < P.protected_range * P.protected_range then
          Vector2Subtract (boids 1).pos (boids 0).pos
        else Vector2Zero) ∧
    ((separation P (rebuild_grid P g boids 2) boids 0).x
        = -(separation P (rebuild_grid P g boids 2) boids 1).x ∧
      (separation P (rebuild_grid P g boids 2) boids 0).y
        = -(separation P (rebuild_grid P g boids 2) boids 1).y) := by
  have v0 := visited_pair P g boids hr hc 0 1 (Or.inl ⟨rfl, rfl⟩)
  have v1 := visited_pair P g boids hr hc 1 0 (Or.inr ⟨rfl, rfl⟩)
  rw [grid_row_of_inside P g _ h1.1, grid_col_of_inside P g _ h1.2] at v0
  rw [grid_row_of_inside P g _ h0.1, grid_col_of_inside P g _ h0.2] at v1
  generalize truncToInt ((boids 0).pos.y / P.visual_range) = r0 at v0 v1
  generalize truncToInt ((boids 0).pos.x / P.visual_range) = c0 at v0 v1
  generalize truncToInt ((boids 1).pos.y / P.visual_range) = r1 at v0 v1
  generalize truncToInt ((boids 1).pos.x / P.visual_range) = c1 at v0 v1
  have s0 : separation P (rebuild_grid P g boids 2) boids 0
      = if 1 ∈ visited P (rebuild_grid P g boids 2) boids 0 ∧
          Vector2Equals (boids 0).pos (boids 1).pos = false ∧
          Vector2DistanceSqr (boids 0).pos (boids 1).pos
            < P.protected_range * P.protected_range then
          Vector2Subtract (boids 0).pos (boids 1).pos
        else Vector2Zero := by
    unfold separation
    rw [for_neighbors_eq_visited, v0]
    by_cases hC : (r1 = r0 - 1 ∨ r1 = r0 ∨ r1 = r0 + 1) ∧ (c1 = c0 - 1 ∨ c1 = c0 ∨ c1 = c0 + 1)
    · rw [if_pos hC, separation_single]
      simp
    · rw [if_neg hC]
      simp [Vector2Zero]
  have s1 : separation P (rebuild_grid P g boids 2) boids 1
      = if 1 ∈ visited P (rebuild_grid P g boids 2) boids 0 ∧
          Vector2Equals (boids 0).pos (boids 1).pos = false ∧
          Vector2DistanceSqr (boids 0).pos (boids 1).pos
            < P.protected_range * P.protected_range then
          Vector2Subtract (boids 1).pos (boids 0).pos
        else Vector2Zero := by
    unfold separation
    rw [for_neighbors_eq_visited, v1, v0, Vector2Equals_comm (boids 0).pos,
      Vector2DistanceSqr_comm (boids 0).pos]
    by_cases hC : (r1 = r0 - 1 ∨ r1 = r0 ∨ r1 = r0 + 1) ∧ (c1 = c0 - 1 ∨ c1 = c0 ∨ c1 = c0 + 1)
    · have hC' : (r0 = r1 - 1 ∨ r0 = r1 ∨ r0 = r1 + 1) ∧
          (c0 = c1 - 1 ∨ c0 = c1 ∨ c0 = c1 + 1) := by omega
      rw [if_pos hC, if_pos hC', separation_single]
      simp
    · have hC' : ¬ ((r0 = r1 - 1 ∨ r0 = r1 ∨ r0 = r1 + 1) ∧
          (c0 = c1 - 1 ∨ c0 = c1 ∨ c0 = c1 + 1)) := by omega
      rw [if_neg hC, if_neg hC']
      simp [Vector2Zero]
  refine ⟨s0, s1, ?_⟩
  rw [s0, s1]
  split_ifs
  · simp [Vector2Subtract]
  · simp [Vector2Zero]

/-- C20 (witness): A at (0, 0) and B at (10, 0) on the 15 x 26 grid, initial parameters. -/
theorem separation_antisymmetric_witness :
    ((1 ≤ empty_grid.rows ∧ 1 ≤ empty_grid.cols) ∧
      ((0 ≤ truncToInt (((near_store : ℕ → Boid ℚ) 0).pos.y
            / (initial_params : Params ℚ).visual_range) ∧
          truncToInt (((near_store : ℕ → Boid ℚ) 0).pos.y
            / (initial_params : Params ℚ).visual_range) < empty_grid.rows) ∧
        (0 ≤ truncToInt (((near_store : ℕ → Boid ℚ) 0).pos.x
            / (initial_params : Params ℚ).visual_range) ∧
          truncToInt (((near_store : ℕ → Boid ℚ) 0).pos.x
            / (initial_params : Params ℚ).visual_range) < empty_grid.cols)) ∧
      ((0 ≤ truncToInt (((near_store : ℕ → Boid ℚ) 1).pos.y
            / (initial_params : Params ℚ).visual_range) ∧
          truncToInt (((near_store : ℕ → Boid ℚ) 1).pos.y
            / (initial_params : Params ℚ).visual_range) < empty_grid.rows) ∧
        (0 ≤ truncToInt (((near_store : ℕ → Boid ℚ) 1).pos.x
            / (initial_params : Params ℚ).visual_range) ∧
          truncToInt (((near_store : ℕ → Boid ℚ) 1).pos.x
            / (initial_params : Params ℚ).visual_range) < empty_grid.cols))) ∧
    ((separation (initial_params : Params ℚ)
        (rebuild_grid (initial_params : Params ℚ) empty_grid near_store 2) near_store 0).x
      = -(separation (initial_params : Params ℚ)
        (rebuild_grid (initial_params : Params ℚ) empty_grid near_store 2) near_store 1).x ∧
    (separation (initial_params : Params ℚ)
        (rebuild_grid (initial_params : Params ℚ) empty_grid near_store 2) near_store 0).y
      = -(separation (initial_params : Params ℚ)
        (rebuild_grid (initial_params : Params ℚ) empty_grid near_store 2) near_store 1).y) :=
  have h0 : (0 ≤ truncToInt (((near_store : ℕ → Boid ℚ) 0).pos.y
            / (initial_params : Params ℚ).visual_range) ∧
          truncToInt (((near_store : ℕ → Boid ℚ) 0).pos.y
            / (initial_params : Params ℚ).visual_range) < empty_grid.rows) ∧
        (0 ≤ truncToInt (((near_store : ℕ → Boid ℚ) 0).pos.x
            / (initial_params : Params ℚ).visual_range) ∧
          truncToInt (((near_store : ℕ → Boid ℚ) 0).pos.x
            / (initial_params : Params ℚ).visual_range) < empty_grid.cols) := by
    norm_num [truncToInt, near_store, two_boids, boid_at, initial_params, empty_grid]
  have h1 : (0 ≤ truncToInt (((near_store : ℕ → Boid ℚ) 1).pos.y
            / (initial_params : Params ℚ).visual_range) ∧
          truncToInt (((near_store : ℕ → Boid ℚ) 1).pos.y
            / (initial_params : Params ℚ).visual_range) < empty_grid.rows) ∧
        (0 ≤ truncToInt (((near_store : ℕ → Boid ℚ) 1).pos.x
            / (initial_params : Params ℚ).visual_range) ∧
          truncToInt (((near_store : ℕ → Boid ℚ) 1).pos.x
            / (initial_params : Params ℚ).visual_range) < empty_grid.cols) := by
    norm_num [truncToInt, near_store, two_boids, boid_at, initial_params, empty_grid]
  ⟨⟨⟨empty_grid_rows, empty_grid_cols⟩, h0, h1⟩,
    (separation_antisymmetric (initial_params : Params ℚ) empty_grid near_store
      empty_grid_rows empty_grid_cols h0 h1).2.2⟩

/-! ## The frame updates the store in place -/

theorem update_boids_succ (L : Libm K) (P : Params K) (g : Grid) (boids : ℕ → Boid K)
    (k : ℕ) (dt : K) :
    update_boids L P g boids (k + 1) dt
      = Function.update (update_boids L P g boids k dt) k
          (update_boid L P g (update_boids L P g boids k dt) k dt) := by
  unfold update_boids
  rw [List.range_succ, List.foldl_append]
  rfl

theorem update_boids_of_ge (L : Libm K) (P : Params K) (g : Grid) (boids : ℕ → Boid K)
    (k : ℕ) (dt : K) (j : ℕ) (h : k ≤ j) : update_boids L P g boids k dt j = boids j := by
  induction k with
  | zero => rfl
  | succ k ih =>
    rw [update_boids_succ, Function.update_noteq (by omega)]
    exact ih (by omega)

theorem update_boids_stable (L : Libm K) (P : Params K) (g : Grid) (boids : ℕ → Boid K)
    (dt : K) (j k n : ℕ) (hj : j < k) (hk : k ≤ n) :
    update_boids L P g boids n dt j = update_boids L P g boids k dt j := by
  induction n with
  | zero => omega
  | succ n ih =>
    rcases Nat.eq_or_lt_of_le hk with e | hlt
    · rw [e]
    · rw [update_boids_succ, Function.update_noteq (by omega)]
      exact ih (by omega)

theorem update_boids_before (L : Libm K) (P : Params K) (g : Grid) (boids : ℕ → Boid K)
    (dt : K) (i n : ℕ) (hi : i ≤ n) :
    update_boids L P g boids i dt
      = fun j => if j < i then update_boids L P g boids n dt j else boids j := by
  funext j
  by_cases h : j < i
  · rw [if_pos h]
    exact (update_boids_stable L P g boids dt j i n h hi).symm
  · rw [if_neg h]
    exact update_boids_of_ge L P g boids i dt j (by omega)

theorem update_boids_at (L : Libm K) (P : Params K) (g : Grid) (boids : ℕ → Boid K)
    (dt : K) (i n : ℕ) (hi : i < n) :
    update_boids L P g boids n dt i
      = update_boid L P g
          (fun j => if j < i then update_boids L P g boids n dt j else boids j) i dt := by
  rw [update_boids_stable L P g boids dt i (i + 1) n (by omega) (by omega), update_boids_succ,
    Function.update_same, update_boids_before L P g boids dt i n (by omega)]

theorem visited_congr (P : Params K) (g : Grid) (boids boids' : ℕ → Boid K) (b : ℕ)
    (h : (boids' b).pos = (boids b).pos) : visited P g boids' b = visited P g boids b := by
  unfold visited for_neighbors
  rw [h]

theorem cohesion_single (P : Params K) (g : Grid) (boids : ℕ → Boid K) (b o : ℕ)
    (h : visited P g boids b = [o]) :
    cohesion P g boids b = Vector2Subtract (boids o).pos (boids b).pos := by
  unfold cohesion
  rw [for_neighbors_eq_visited, h, cohesion_fold]
  simp [Vector2Subtract, vector2divide, Vector2Zero]

theorem smoothed_vel_cohesion_only (L : Libm K) (g : Grid) (boids : ℕ → Boid K) (b : ℕ) :
    smoothed_vel L cohesion_params g boids b
      = ⟨(boids b).vel.x + 1 / 10 * (cohesion cohesion_params g boids b).x,
          (boids b).vel.y + 1 / 10 * (cohesion cohesion_params g boids b).y⟩ := by
  unfold smoothed_vel
  ext <;> simp [Vector2Lerp, Vector2Add, Vector2Scale, cohesion_params]

theorem clamp_speed_of_le (L : Libm K) (hL : IsSqrt L.sqrtf) (v : Vector2 K)
    (h : v.x * v.x + v.y * v.y ≤ 400 * 400) : clamp_speed L v = v := by
  obtain ⟨h0, h1⟩ := hL (v.x * v.x + v.y * v.y)
    (add_nonneg (mul_self_nonneg _) (mul_self_nonneg _))
  have hn : ¬ Vector2Length L v > 400 := by
    unfold Vector2Length
    intro hgt
    nlinarith
  unfold clamp_speed
  simp only [hn, if_false]

theorem pair_visited {K : Type} [LinearOrderedField K] [FloorRing K]
    (boids' : ℕ → Boid K) (b o : ℕ) (hbo : (b = 0 ∧ o = 1) ∨ (b = 1 ∧ o = 0))
    (h : (boids' b).pos = ((pair_store : ℕ → Boid K) b).pos) :
    visited (cohesion_params : Params K)
      (rebuild_grid (cohesion_params : Params K) empty_grid pair_store 2) boids' b = [o] := by
  rw [visited_congr _ _ pair_store boids' b h,
    visited_pair cohesion_params empty_grid pair_store empty_grid_rows empty_grid_cols b o hbo]
  rcases hbo with ⟨rfl, rfl⟩ | ⟨rfl, rfl⟩ <;>
    norm_num [grid_row, grid_col, truncToInt, pair_store, two_boids, boid_at, cohesion_params,
      empty_grid]

theorem smoothed_vel_pair (L : Libm K) (g : Grid) (boids : ℕ → Boid K) (b o : ℕ)
    (h : visited cohesion_params g boids b = [o]) :
    smoothed_vel L cohesion_params g boids b
      = ⟨(boids b).vel.x + 1 / 10 * ((boids o).pos.x - (boids b).pos.x),
          (boids b).vel.y + 1 / 10 * ((boids o).pos.y - (boids b).pos.y)⟩ := by
  rw [smoothed_vel_cohesion_only, cohesion_single _ _ _ _ _ h]
  rfl

/-- The frame on `pair_store` with cohesion only and `dt = 1`: boid 0 moves to
(501, 500); boid 1 then sees it there and moves to (509.1, 500), while from the
start-of-frame store it would move to (509, 500). -/
theorem pair_store_frame (L : Libm K) (hL : IsSqrt L.sqrtf) :
    (frame_step L cohesion_params empty_grid pair_store 2 1 0).pos = ⟨501, 500⟩ ∧
    (frame_step L cohesion_params empty_grid pair_store 2 1 1).pos = ⟨5091 / 10, 500⟩ ∧
    (sync_step L cohesion_params empty_grid pair_store 2 1 1).pos = ⟨509, 500⟩ := by
  have p0 : (update_boid L cohesion_params
      (rebuild_grid (cohesion_params : Params K) empty_grid pair_store 2) pair_store 0 1).pos
      = ⟨501, 500⟩ := by
    rw [update_boid_pos, smoothed_vel_pair L _ _ 0 1
      (pair_visited pair_store 0 1 (Or.inl ⟨rfl, rfl⟩) rfl),
      clamp_speed_of_le L hL _ (by norm_num [pair_store, two_boids, boid_at])]
    ext <;> norm_num [pair_store, two_boids, boid_at, Vector2Add, Vector2Scale]
  have e1 : update_boids L cohesion_params
      (rebuild_grid (cohesion_params : Params K) empty_grid pair_store 2) pair_store 1 1
      = Function.update pair_store 0 (update_boid L cohesion_params
          (rebuild_grid (cohesion_params : Params K) empty_grid pair_store 2) pair_store 0 1) :=
    update_boids_succ L cohesion_params _ pair_store 0 1
  have e2 : update_boids L cohesion_params
      (rebuild_grid (cohesion_params : Params K) empty_grid pair_store 2) pair_store 2 1
      = Function.update (Function.update pair_store 0 (update_boid L cohesion_params
          (rebuild_grid (cohesion_params : Params K) empty_grid pair_store 2) pair_store 0 1)) 1
        (update_boid L cohesion_params
          (rebuild_grid (cohesion_params : Params K) empty_grid pair_store 2)
          (Function.update pair_store 0 (update_boid L cohesion_params
            (rebuild_grid (cohesion_params : Params K) empty_grid pair_store 2)
            pair_store 0 1)) 1 1) := by
    rw [← e1]
    exact update_boids_succ L cohesion_params _ pair_store 1 1
  refine ⟨?_, ?_, ?_⟩
  · unfold frame_step
    rw [e2, Function.update_noteq (by decide), Function.update_same]
    exact p0
  · unfold frame_step
    rw [e2, Function.update_same, update_boid_pos, smoothed_vel_pair L _ _ 1 0
      (pair_visited _ 1 0 (Or.inr ⟨rfl, rfl⟩) (by rw [Function.update_noteq (by decide)])),
      clamp_speed_of_le L hL _ (by
        simp only [Function.update_same, Function.update_noteq (show (1 : ℕ) ≠ 0 by decide), p0]
        norm_num [pair_store, two_boids, boid_at])]
    simp only [Function.update_same, Function.update_noteq (show (1 : ℕ) ≠ 0 by decide), p0]
    ext <;> norm_num [pair_store, two_boids, boid_at, Vector2Add, Vector2Scale]
  · unfold sync_step
    rw [if_pos (by decide), update_boid_pos, smoothed_vel_pair L _ _ 1 0
      (pair_visited pair_store 1 0 (Or.inr ⟨rfl, rfl⟩) rfl),
      clamp_speed_of_le L hL _ (by norm_num [pair_store, two_boids, boid_at])]
    ext <;> norm_num [pair_store, two_boids, boid_at, Vector2Add, Vector2Scale]

/-- C18: in a frame (the rebuild, then `update_boid` on boids `0 .. n-1` in index order on
the live store) the update of boid `i` runs on the store that holds the result of the frame
for every `j < i` and the start-of-frame boid for every `j >= i`, with the grid of the
start-of-frame rebuild.  This is not the synchronous step: on the store of boid 0 at
(500, 500) and boid 1 at (510, 500), at rest, with cohesion only and `dt = 1`, the frame
moves boid 1 to (509.1, 500) and the synchronous step moves it to (509, 500). -/
theorem frame_updates_in_place (L : Libm K) (P : Params K) (g : Grid) (boids : ℕ → Boid K)
    (n : ℕ) (dt : K) (i : ℕ) :
    (if i < n then
        frame_step L P g boids n dt i
          = update_boid L P (rebuild_grid P g boids n)
              (fun j => if j < i then frame_step L P g boids n dt j else boids j) i dt
      else frame_step L P g boids n dt i = boids i) ∧
    ((frame_step (Libm.mk Real.sqrt (fun y x => Complex.arg ⟨x, y⟩) Real.sin Real.cos Real.pi)
        cohesion_params empty_grid pair_store 2 1 1).pos = ⟨5091 / 10, 500⟩ ∧
      (sync_step (Libm.mk Real.sqrt (fun y x => Complex.arg ⟨x, y⟩) Real.sin Real.cos Real.pi)
        cohesion_params empty_grid pair_store 2 1 1).pos = ⟨509, 500⟩) := by
  constructor
  · split_ifs with h
    · exact update_boids_at L P (rebuild_grid P g boids n) boids dt i n h
    · exact update_boids_of_ge L P (rebuild_grid P g boids n) boids n dt i (not_lt.mp h)
  · exact (pair_store_frame
      (Libm.mk Real.sqrt (fun y x => Complex.arg ⟨x, y⟩) Real.sin Real.cos Real.pi)
      (fun x hx => ⟨Real.sqrt_nonneg x, Real.mul_self_sqrt hx⟩)).2

/-! ## Machine arithmetic -/

/-! ### Rounding to binary32 -/

theorem log_two_eq (x : K) (e : ℤ) (hx : 0 < x) (h1 : (2 : K) ^ e ≤ x)
    (h2 : x < (2 : K) ^ (e + 1)) : Int.log 2 |x| = e := by
  rw [abs_of_pos hx]
  have a1 : e ≤ Int.log 2 x := by
    apply (Int.zpow_le_iff_le_log (by norm_num : 1 < 2) hx).1
    simpa using h1
  have a2 : Int.log 2 x < e + 1 := by
    apply (Int.lt_zpow_iff_log_lt (by norm_num : 1 < 2) hx).1
    simpa using h2
  omega

theorem round_f32_of_lt_half (x : K) (e m : ℤ) (hx : 0 < x) (h1 : (2 : K) ^ e ≤ x)
    (h2 : x < (2 : K) ^ (e + 1)) (h3 : (m : K) * (2 : K) ^ (e - 23) ≤ x)
    (h4 : x < ((m : K) + 1 / 2) * (2 : K) ^ (e - 23)) :
    round_f32 x = (m : K) * (2 : K) ^ (e - 23) := by
  have hu : (0 : K) < (2 : K) ^ (e - 23) := zpow_pos (by norm_num) _
  have hm : ⌊x / (2 : K) ^ (e - 23)⌋ = m := by
    rw [Int.floor_eq_iff, le_div_iff₀ hu, div_lt_iff₀ hu]
    refine ⟨h3, lt_of_lt_of_le h4 ?_⟩
    apply mul_le_mul_of_nonneg_right _ hu.le
    linarith
  have hr : x / (2 : K) ^ (e - 23) - (m : K) < 1 / 2 := by
    rw [sub_lt_iff_lt_add, div_lt_iff₀ hu]
    linarith
  unfold round_f32
  simp only [log_two_eq x e hx h1 h2, hm, hr, if_true]

theorem round_f32_of_gt_half (x : K) (e m : ℤ) (hx : 0 < x) (h1 : (2 : K) ^ e ≤ x)
    (h2 : x < (2 : K) ^ (e + 1)) (h3 : ((m : K) + 1 / 2) * (2 : K) ^ (e - 23) < x)
    (h4 : x < ((m : K) + 1) * (2 : K) ^ (e - 23)) :
    round_f32 x = ((m : K) + 1) * (2 : K) ^ (e - 23) := by
  have hu : (0 : K) < (2 : K) ^ (e - 23) := zpow_pos (by norm_num) _
  have hm : ⌊x / (2 : K) ^ (e - 23)⌋ = m := by
    rw [Int.floor_eq_iff, le_div_iff₀ hu, div_lt_iff₀ hu]
    refine ⟨le_trans ?_ h3.le, h4⟩
    apply mul_le_mul_of_nonneg_right _ hu.le
    linarith
  have hr : 1 / 2 < x / (2 : K) ^ (e - 23) - (m : K) := by
    rw [lt_sub_iff_add_lt, lt_div_iff₀ hu]
    linarith
  unfold round_f32
  simp only [log_two_eq x e hx h1 h2, hm, hr, not_lt_of_gt hr, if_true, if_false]


/-! ### The cell index on the machine -/

theorem clamp_steps_eq (r n : ℤ) (hn : 1 ≤ n) :
    (let r := if r < 0 then 0 else r
     if r ≥ n then n - 1 else r) = clamp_spec r 0 (n - 1) := by
  unfold clamp_spec
  simp only
  split_ifs <;> omega

theorem cell_index_spec (ub : ℤ) (q : K) (n : ℤ) (hn : 1 ≤ n) :
    (0 ≤ (let r := float_to_int ub q
          let r := if r < 0 then 0 else r
          if r ≥ n then n - 1 else r) ∧
      (let r := float_to_int ub q
       let r := if r < 0 then 0 else r
       if r ≥ n then n - 1 else r) < n) ∧
    (if INT_MIN ≤ truncToInt q ∧ truncToInt q ≤ INT_MAX then
        (let r := float_to_int ub q
         let r := if r < 0 then 0 else r
         if r ≥ n then n - 1 else r) = clamp_spec ⌊q⌋ 0 (n - 1)
      else
        (let r := float_to_int ub q
         let r := if r < 0 then 0 else r
         if r ≥ n then n - 1 else r) = clamp_spec ub 0 (n - 1)) := by
  have e := clamp_steps_eq (float_to_int ub q) n hn
  simp only at e ⊢
  rw [e]
  refine ⟨by unfold clamp_spec; omega, ?_⟩
  by_cases h : INT_MIN ≤ truncToInt q ∧ truncToInt q ≤ INT_MAX
  · have t := truncToInt_clamp q n hn
    have c := clamp_steps_eq (truncToInt q) n hn
    simp only at t c
    rw [if_pos h]
    unfold float_to_int
    rw [if_pos h, ← t, c]
  · rw [if_neg h]
    unfold float_to_int
    rw [if_neg h]

/-- With exact division and a quotient inside the `int` range the machine row is
`grid_row`. -/
theorem grid_row_f32_exact (ub : ℤ) (P : Params K) (g : Grid) (pos : Vector2 K)
    (h : INT_MIN ≤ truncToInt (pos.y / P.visual_range) ∧
      truncToInt (pos.y / P.visual_range) ≤ INT_MAX) :
    grid_row_f32 (fun x => x) ub P g pos = grid_row P g pos := by
  unfold grid_row_f32 grid_row float_to_int
  simp only [if_pos h]

/-- With exact division and a quotient inside the `int` range the machine column is
`grid_col`. -/
theorem grid_col_f32_exact (ub : ℤ) (P : Params K) (g : Grid) (pos : Vector2 K)
    (h : INT_MIN ≤ truncToInt (pos.x / P.visual_range) ∧
      truncToInt (pos.x / P.visual_range) ≤ INT_MAX) :
    grid_col_f32 (fun x => x) ub P g pos = grid_col P g pos := by
  unfold grid_col_f32 grid_col float_to_int
  simp only [if_pos h]

/-- C5 (as amended): for every rounding `rnd` of the quotient and every result `ub` of an
out-of-range `(int)` conversion, with `visual_range > 0` and `rows, cols ≥ 1`, the cell
that `add_boid_to_grid` computes lies inside the grid; and on each axis it is
`clamp(floor(q), 0, dim-1)` for the quotient `q` as the program computes it, when the
truncation of `q` is a 32-bit `int`, and the clamp of `ub` otherwise. -/
theorem cell_in_grid_and_floor_clamp (rnd : K → K) (ub : ℤ) (P : Params K) (g : Grid)
    (pos : Vector2 K) (_hvr : 0 < P.visual_range) (hr : 1 ≤ g.rows) (hc : 1 ≤ g.cols) :
    ((0 ≤ grid_row_f32 rnd ub P g pos ∧ grid_row_f32 rnd ub P g pos < g.rows) ∧
      (0 ≤ grid_col_f32 rnd ub P g pos ∧ grid_col_f32 rnd ub P g pos < g.cols)) ∧
    (if INT_MIN ≤ truncToInt (rnd (pos.y / P.visual_range)) ∧
          truncToInt (rnd (pos.y / P.visual_range)) ≤ INT_MAX then
        grid_row_f32 rnd ub P g pos
          = clamp_spec ⌊rnd (pos.y / P.visual_range)⌋ 0 (g.rows - 1)
      else grid_row_f32 rnd ub P g pos = clamp_spec ub 0 (g.rows - 1)) ∧
    (if INT_MIN ≤ truncToInt (rnd (pos.x / P.visual_range)) ∧
          truncToInt (rnd (pos.x / P.visual_range)) ≤ INT_MAX then
        grid_col_f32 rnd ub P g pos
          = clamp_spec ⌊rnd (pos.x / P.visual_range)⌋ 0 (g.cols - 1)
      else grid_col_f32 rnd ub P g pos = clamp_spec ub 0 (g.cols - 1)) :=
  ⟨⟨(cell_index_spec ub (rnd (pos.y / P.visual_range)) g.rows hr).1,
      (cell_index_spec ub (rnd (pos.x / P.visual_range)) g.cols hc).1⟩,
    (cell_index_spec ub (rnd (pos.y / P.visual_range)) g.rows hr).2,
    (cell_index_spec ub (rnd (pos.x / P.visual_range)) g.cols hc).2⟩

/-- C5 (witness): the position (2500, -40), right of and above the screen, with the
binary32 rounding and `INT_MIN` for an out-of-range conversion. -/
theorem cell_in_grid_and_floor_clamp_witness :
    ((0 : ℚ) < (initial_params : Params ℚ).visual_range ∧
      1 ≤ empty_grid.rows ∧ 1 ≤ empty_grid.cols) ∧
    ((0 ≤ grid_row_f32 round_f32 INT_MIN (initial_params : Params ℚ) empty_grid ⟨2500, -40⟩ ∧
        grid_row_f32 round_f32 INT_MIN (initial_params : Params ℚ) empty_grid ⟨2500, -40⟩
          < empty_grid.rows) ∧
      (0 ≤ grid_col_f32 round_f32 INT_MIN (initial_params : Params ℚ) empty_grid ⟨2500, -40⟩ ∧
        grid_col_f32 round_f32 INT_MIN (initial_params : Params ℚ) empty_grid ⟨2500, -40⟩
          < empty_grid.cols)) :=
  have hvr : (0 : ℚ) < (initial_params : Params ℚ).visual_range := by
    norm_num [initial_params]
  ⟨⟨hvr, empty_grid_rows, empty_grid_cols⟩,
    (cell_in_grid_and_floor_clamp round_f32 INT_MIN initial_params empty_grid ⟨2500, -40⟩
      hvr empty_grid_rows empty_grid_cols).1⟩

theorem round_578_slid : round_f32 ((578 : ℚ) / (12626603 / 65536)) = 3 := by
  rw [round_f32_of_gt_half ((578 : ℚ) / (12626603 / 65536)) 1 12582911 (by norm_num)
    (by norm_num) (by norm_num) (by norm_num) (by norm_num)]
  norm_num

theorem round_pow38_75 : round_f32 ((274877906944 : ℚ) / 75) = 3665038848 := by
  rw [round_f32_of_gt_half ((274877906944 : ℚ) / 75) 31 14316557 (by norm_num)
    (by norm_num) (by norm_num) (by norm_num) (by norm_num)]
  norm_num

/-- C5 (counterexample): on the 15 x 26 grid, (a) with `visual_range = 12626603 / 65536`
(192.66667) the position (578, 578) has the exact quotient 2.99999992, which the `float`
division rounds to 3: the code stores the boid in cell (3, 3), and `cell_of_spec` is
(2, 2); (b) with `visual_range = 75` the position (2^38, 2^38) has the `float`
quotient 3665038848, above `INT_MAX`: the conversion delivers `INT_MIN` and the code
stores the boid in cell (0, 0), and `cell_of_spec` is (14, 25). -/
theorem cell_differs_from_floor_clamp :
    ((grid_row_f32 round_f32 INT_MIN (slid_params : Params ℚ) empty_grid ⟨578, 578⟩,
        grid_col_f32 round_f32 INT_MIN (slid_params : Params ℚ) empty_grid ⟨578, 578⟩) = (3, 3) ∧
      cell_of_spec (slid_params : Params ℚ) empty_grid ⟨578, 578⟩ = (2, 2)) ∧
    ((grid_row_f32 round_f32 INT_MIN (initial_params : Params ℚ) empty_grid
          ⟨274877906944, 274877906944⟩,
        grid_col_f32 round_f32 INT_MIN (initial_params : Params ℚ) empty_grid
          ⟨274877906944, 274877906944⟩) = (0, 0) ∧
      cell_of_spec (initial_params : Params ℚ) empty_grid ⟨274877906944, 274877906944⟩
        = (14, 25)) := by
  have f1 : ⌊(578 : ℚ) / (12626603 / 65536)⌋ = 2 := by
    rw [Int.floor_eq_iff]; norm_num
  have f2 : ⌊(274877906944 : ℚ) / 75⌋ = 3665038759 := by
    rw [Int.floor_eq_iff]; norm_num
  refine ⟨⟨?_, ?_⟩, ?_, ?_⟩
  · simp only [grid_row_f32, grid_col_f32, slid_params, round_578_slid]
    norm_num [float_to_int, truncToInt, INT_MIN, INT_MAX, empty_grid]
  · simp only [cell_of_spec, slid_params, f1]
    norm_num [clamp_spec, empty_grid]
  · simp only [grid_row_f32, grid_col_f32, initial_params, round_pow38_75]
    norm_num [float_to_int, truncToInt, INT_MIN, INT_MAX, empty_grid]
  · simp only [cell_of_spec, initial_params, f2]
    norm_num [clamp_spec, empty_grid]

/-! ### Grid sizing on the machine -/

theorem truncToInt_intCast (z : ℤ) : truncToInt ((z : ℤ) : K) = z := by
  unfold truncToInt
  split_ifs
  · exact Int.floor_intCast z
  · exact Int.ceil_intCast z

theorem float_to_int_intCast (ub z : ℤ) :
    float_to_int ub ((z : ℤ) : K) = if INT_MIN ≤ z ∧ z ≤ INT_MAX then z else ub := by
  unfold float_to_int
  rw [truncToInt_intCast]

theorem init_grid_f32_rows (rnd : K → K) (ub w h : ℤ) (vr : K) (fresh : ℤ → ℤ → BoidList) :
    (init_grid_f32 rnd ub w h vr fresh).rows
      = if INT_MIN ≤ ⌈rnd (rnd (h : K) / vr)⌉ ∧ ⌈rnd (rnd (h : K) / vr)⌉ ≤ INT_MAX then
          ⌈rnd (rnd (h : K) / vr)⌉
        else ub := by
  unfold init_grid_f32; rw [reset_rows]
  exact float_to_int_intCast ub _

theorem init_grid_f32_cols (rnd : K → K) (ub w h : ℤ) (vr : K) (fresh : ℤ → ℤ → BoidList) :
    (init_grid_f32 rnd ub w h vr fresh).cols
      = if INT_MIN ≤ ⌈rnd (rnd (w : K) / vr)⌉ ∧ ⌈rnd (rnd (w : K) / vr)⌉ ≤ INT_MAX then
          ⌈rnd (rnd (w : K) / vr)⌉
        else ub := by
  unfold init_grid_f32; rw [reset_cols]
  exact float_to_int_intCast ub _

/-- With exact arithmetic and ceilings inside the `int` range the machine `init_grid` is
`init_grid`. -/
theorem init_grid_f32_exact (ub w h : ℤ) (vr : K) (fresh : ℤ → ℤ → BoidList)
    (hh : INT_MIN ≤ ⌈(h : K) / vr⌉ ∧ ⌈(h : K) / vr⌉ ≤ INT_MAX)
    (hw : INT_MIN ≤ ⌈(w : K) / vr⌉ ∧ ⌈(w : K) / vr⌉ ≤ INT_MAX) :
    init_grid_f32 (fun x => x) ub w h vr fresh = init_grid w h vr fresh := by
  unfold init_grid_f32 init_grid
  rw [float_to_int_intCast, float_to_int_intCast, if_pos hh, if_pos hw]

theorem round_1080 : round_f32 (1080 : ℚ) = 1080 := by
  rw [round_f32_of_lt_half (1080 : ℚ) 10 8847360 (by norm_num) (by norm_num) (by norm_num)
    (by norm_num) (by norm_num)]
  norm_num

theorem round_1920 : round_f32 (1920 : ℚ) = 1920 := by
  rw [round_f32_of_lt_half (1920 : ℚ) 10 15728640 (by norm_num) (by norm_num) (by norm_num)
    (by norm_num) (by norm_num)]
  norm_num

theorem round_1080_75 : round_f32 ((1080 : ℚ) / 75) = 7549747 / 524288 := by
  rw [round_f32_of_lt_half ((1080 : ℚ) / 75) 3 15099494 (by norm_num) (by norm_num)
    (by norm_num) (by norm_num) (by norm_num)]
  norm_num

theorem round_1920_75 : round_f32 ((1920 : ℚ) / 75) = 13421773 / 524288 := by
  rw [round_f32_of_gt_half ((1920 : ℚ) / 75) 4 13421772 (by norm_num) (by norm_num)
    (by norm_num) (by norm_num) (by norm_num)]
  norm_num

theorem init_grid_f32_scenario (ub : ℤ) (fresh : ℤ → ℤ → BoidList) :
    (init_grid_f32 round_f32 ub 1920 1080 (75 : ℚ) fresh).rows = 15 ∧
    (init_grid_f32 round_f32 ub 1920 1080 (75 : ℚ) fresh).cols = 26 := by
  have c1 : ⌈(7549747 : ℚ) / 524288⌉ = 15 := by rw [Int.ceil_eq_iff]; norm_num
  have c2 : ⌈(13421773 : ℚ) / 524288⌉ = 26 := by rw [Int.ceil_eq_iff]; norm_num
  constructor
  · rw [init_grid_f32_rows]
    push_cast
    rw [round_1080, round_1080_75, c1]
    norm_num [INT_MIN, INT_MAX]
  · rw [init_grid_f32_cols]
    push_cast
    rw [round_1920, round_1920_75, c2]
    norm_num [INT_MIN, INT_MAX]

/-- C16 (as amended): for every rounding `rnd` and every result `ub` of an out-of-range
`(int)` conversion, with `visual_range > 0`, `init_grid` sets `rows` and `cols` to the
ceilings of the quotients as the program computes them, `(float)screen_height /
visual_range` and `(float)screen_width / visual_range` rounded to `float`, when these
ceilings are 32-bit `int`s (and to `ub` otherwise), and leaves every cell of the grid
empty, with count 0 and capacity 0, whatever the allocated memory held.  Scenario:
1920 x 1080 with `visual_range = 75` gives 15 rows and 26 columns under the binary32
rounding. -/
theorem init_grid_sizing_of_float_quotient (rnd : K → K) (ub w h : ℤ) (vr : K)
    (fresh : ℤ → ℤ → BoidList) (r c : ℤ) (_hvr : 0 < vr) :
    (if INT_MIN ≤ ⌈rnd (rnd (h : K) / vr)⌉ ∧ ⌈rnd (rnd (h : K) / vr)⌉ ≤ INT_MAX then
        (init_grid_f32 rnd ub w h vr fresh).rows = ⌈rnd (rnd (h : K) / vr)⌉
      else (init_grid_f32 rnd ub w h vr fresh).rows = ub) ∧
    (if INT_MIN ≤ ⌈rnd (rnd (w : K) / vr)⌉ ∧ ⌈rnd (rnd (w : K) / vr)⌉ ≤ INT_MAX then
        (init_grid_f32 rnd ub w h vr fresh).cols = ⌈rnd (rnd (w : K) / vr)⌉
      else (init_grid_f32 rnd ub w h vr fresh).cols = ub) ∧
    ((init_grid_f32 rnd ub w h vr fresh).cell r c
        = if (0 ≤ r ∧ r < (init_grid_f32 rnd ub w h vr fresh).rows) ∧
            (0 ≤ c ∧ c < (init_grid_f32 rnd ub w h vr fresh).cols) then BoidList.empty
          else fresh r c) ∧
    (BoidList.empty.count = 0 ∧ BoidList.empty.capacity = 0) ∧
    ((init_grid_f32 round_f32 ub 1920 1080 (75 : ℚ) fresh).rows = 15 ∧
      (init_grid_f32 round_f32 ub 1920 1080 (75 : ℚ) fresh).cols = 26) := by
  refine ⟨?_, ?_, ?_, ⟨rfl, rfl⟩, init_grid_f32_scenario ub fresh⟩
  · rw [init_grid_f32_rows]
    split_ifs <;> rfl
  · rw [init_grid_f32_cols]
    split_ifs <;> rfl
  · have e1 : (init_grid_f32 rnd ub w h vr fresh).rows
        = float_to_int ub ((⌈rnd (rnd (h : K) / vr)⌉ : ℤ) : K) := by
      unfold init_grid_f32; rw [reset_rows]
    have e2 : (init_grid_f32 rnd ub w h vr fresh).cols
        = float_to_int ub ((⌈rnd (rnd (w : K) / vr)⌉ : ℤ) : K) := by
      unfold init_grid_f32; rw [reset_cols]
    rw [e1, e2]
    unfold init_grid_f32
    rw [reset_cell]

/-- C16 (witness): the call of `main`, `init_grid(1920, 1080, 75)`, under the binary32
rounding, on memory that holds empty lists. -/
theorem init_grid_sizing_of_float_quotient_witness :
    (0 : ℚ) < 75 ∧
    ((init_grid_f32 round_f32 INT_MIN 1920 1080 (75 : ℚ) (fun _ _ => BoidList.empty)).rows = 15 ∧
      (init_grid_f32 round_f32 INT_MIN 1920 1080 (75 : ℚ) (fun _ _ => BoidList.empty)).cols
        = 26) :=
  ⟨by norm_num,
    (init_grid_sizing_of_float_quotient round_f32 INT_MIN 1920 1080 (75 : ℚ)
      (fun _ _ => BoidList.empty) 0 0 (by norm_num)).2.2.2.2⟩

theorem round_1920_slider : round_f32 ((1920 : ℚ) / (4493897 / 16384)) = 7 := by
  rw [round_f32_of_lt_half ((1920 : ℚ) / (4493897 / 16384)) 2 14680064 (by norm_num)
    (by norm_num) (by norm_num) (by norm_num) (by norm_num)]
  norm_num

theorem round_1080_tiny : round_f32 ((1080 : ℚ) / (1 / 8388608)) = 9059696640 := by
  rw [round_f32_of_lt_half ((1080 : ℚ) / (1 / 8388608)) 33 8847360 (by norm_num)
    (by norm_num) (by norm_num) (by norm_num) (by norm_num)]
  norm_num

/-- C16 (counterexample): (a) `visual_range = 4493897 / 16384` (274.285706, a `float`
inside the slider's range): the exact quotient `1920 / visual_range` is 7.0000002, of
ceiling 8, and the `float` division rounds it to 7, so `init_grid` sets `cols = 7`;
(b) `visual_range = 2^-23`: the quotient `1080 / visual_range` is 9059696640, above
`INT_MAX`, and `rows` is what the out-of-range conversion delivers, `INT_MIN`. -/
theorem init_grid_differs_from_ceiling :
    ((init_grid_f32 round_f32 INT_MIN 1920 1080 ((4493897 : ℚ) / 16384)
          (fun _ _ => BoidList.empty)).cols = 7 ∧
      ⌈((1920 : ℤ) : ℚ) / (4493897 / 16384)⌉ = 8) ∧
    ((init_grid_f32 round_f32 INT_MIN 1920 1080 ((1 : ℚ) / 8388608)
          (fun _ _ => BoidList.empty)).rows = -2147483648 ∧
      ⌈((1080 : ℤ) : ℚ) / (1 / 8388608)⌉ = 9059696640) := by
  refine ⟨⟨?_, ?_⟩, ?_, ?_⟩
  · rw [init_grid_f32_cols]
    push_cast
    rw [round_1920, round_1920_slider]
    norm_num [INT_MIN, INT_MAX]
  · rw [Int.ceil_eq_iff]; norm_num
  · rw [init_grid_f32_rows]
    push_cast
    rw [round_1080, round_1080_tiny]
    norm_num [INT_MIN, INT_MAX]
  · rw [Int.ceil_eq_iff]; norm_num

/-! ### The speed clamp for every `sqrtf` -/

end Theorems

end Boids
